import Mathlib

/-!
The five tracepoint handlers of `sigwatch.bpf.c`.

A shallow embedding of `src/bpf/sigwatch.bpf.c`.

* Machine integers are natural numbers, reduced modulo `2^32` / `2^64` at the
  places where the C program stores into a `__u32` / `__u64`.
* The tracepoint context `ctx` is a list of bytes; `bpf_probe_read` is fallible.
* The two maps of the program (`signal_filter`, `events`) form the state that
  is threaded through a handler; what the kernel helpers answer for the
  current thread (pid/tgid, comm, clock) is an input of the invocation, as is
  the outcome of `bpf_ringbuf_reserve` (the slot handed out, with whatever it
  contained before, or `none`).
* The handlers are given twice: on the named members of a record
  (`trace_kill`, ...), and store by store on the bytes of the reserved slot
  (`trace_kill_bytes`, ...), where the padding between members is visible.
-/

namespace Sigwatch

/-! ## Constants and record types -/

/-- Number of slots of the `signal_filter` array map (`#define MAX_SIGNAL 64`). -/
def MAX_SIGNAL : Nat := 64

/-- Length of a task name (`#define TASK_COMM_LEN 16`). -/
def TASK_COMM_LEN : Nat := 16

/-- Modulus of a `__u32`. -/
def U32 : Nat := 2 ^ 32

/-- Modulus of a `__u64`. -/
def U64 : Nat := 2 ^ 64

/-- Record `struct signal_event`, field by field in declaration order. -/
structure signal_event where
  sender_pid : Nat
  sender_tgid : Nat
  target_pid : Nat
  target_tgid : Nat
  signal : Nat
  sender_comm : List Nat
  target_comm : List Nat
  timestamp : Nat
deriving DecidableEq, Repr

/-- Record `struct process_event`, field by field in declaration order. -/
structure process_event where
  pid : Nat
  tgid : Nat
  ppid : Nat
  comm : List Nat
  timestamp : Nat
  event_type : Nat
  exit_code : Nat
deriving DecidableEq, Repr

/-! ## C struct layout (size handed to `bpf_ringbuf_reserve`)

Members are laid out in declaration order at their natural alignment, as the
compiler does for the BPF target: `__u8` and `char` 1, `__u32` 4, `__u64` 8.
Neither struct is declared packed. -/

/-- Round `off` up to the next multiple of `a`. -/
def align_up (off a : Nat) : Nat := (off + a - 1) / a * a

/-- Offsets of the members of a C struct; a member is `(size, alignment)`. -/
def c_offsets : Nat → List (Nat × Nat) → List Nat
  | _, [] => []
  | off, (sz, al) :: rest => align_up off al :: c_offsets (align_up off al + sz) rest

/-- End of the last member of a C struct that starts at `off`. -/
def c_end : Nat → List (Nat × Nat) → Nat
  | off, [] => off
  | off, (sz, al) :: rest => c_end (align_up off al + sz) rest

/-- Value of `sizeof` for a C struct: the end of the last member rounded up to
the largest member alignment. -/
def c_sizeof (members : List (Nat × Nat)) : Nat :=
  align_up (c_end 0 members) ((members.map Prod.snd).foldl max 1)

/-- Members of `struct signal_event`: five `__u32`, two `char[16]`, one `__u64`. -/
def signal_event_members : List (Nat × Nat) :=
  [(4, 4), (4, 4), (4, 4), (4, 4), (4, 4),
   (TASK_COMM_LEN, 1), (TASK_COMM_LEN, 1), (8, 8)]

/-- Members of `struct process_event`: three `__u32`, `char[16]`, `__u64`,
`__u8`, `__u32`. -/
def process_event_members : List (Nat × Nat) :=
  [(4, 4), (4, 4), (4, 4), (TASK_COMM_LEN, 1), (8, 8), (1, 1), (4, 4)]

/-- Value of `sizeof(struct signal_event)`. -/
def sizeof_signal_event : Nat := c_sizeof signal_event_members

/-- Value of `sizeof(struct process_event)`. -/
def sizeof_process_event : Nat := c_sizeof process_event_members

/-! ## State: the two maps -/

/-- One submitted ring-buffer record: the size it was reserved with and the
struct written into it. -/
inductive Record where
  | sig (size : Nat) (e : signal_event)
  | proc (size : Nat) (e : process_event)
deriving DecidableEq, Repr

/-- The maps of the program.
* `signal_filter`: value area of the `BPF_MAP_TYPE_ARRAY` map; slot `i` holds
  the `__u64` stored under key `i`.
* `events`: records submitted to the ring buffer, oldest first.
* `reserve_calls`: ghost counter of `bpf_ringbuf_reserve` calls. -/
structure State where
  signal_filter : List Nat
  events : List Record
  reserve_calls : Nat
deriving DecidableEq, Repr

/-- What the kernel helpers answer during one handler invocation: the combined
identifier of the current thread, the bytes of its `comm` array, the clock. -/
structure Current where
  pid_tgid : Nat
  comm : List Nat
  ktime : Nat
deriving DecidableEq, Repr

/-! ## Kernel helpers -/

/-- Map `signal_filter` as the kernel creates it from its declaration
(`BPF_MAP_TYPE_ARRAY`, `max_entries = MAX_SIGNAL`): an array map has all its
slots from creation on, each holding zero until it is written. -/
def signal_filter_created : List Nat := List.replicate MAX_SIGNAL 0

/-- Helper `bpf_map_lookup_elem` on the array map `signal_filter`: a key below
`max_entries` yields (a pointer to) its slot, any other key yields NULL. -/
def bpf_map_lookup_elem (values : List Nat) (key : Nat) : Option Nat :=
  if key < MAX_SIGNAL then some (values.getD key 0 % U64) else none

/-- Helper `bpf_map_update_elem` on the array map, as the control plane calls
it: a key below `max_entries` overwrites its slot, any other key is rejected. -/
def bpf_map_update_elem (values : List Nat) (key value : Nat) : List Nat :=
  if key < MAX_SIGNAL then
    (values ++ List.replicate (MAX_SIGNAL - values.length) 0).set key (value % U64)
  else values

/-- Helper `bpf_probe_read(dst, size, ctx + off)`: the bytes read, or `none`
when the range is not readable. -/
def bpf_probe_read (ctx : List Nat) (size off : Nat) : Option (List Nat) :=
  if off + size ≤ ctx.length then some (((ctx.drop off).take size).map (· % 256))
  else none

/-- Little-endian value of a byte string. -/
def le_value : List Nat → Nat
  | [] => 0
  | b :: rest => b + 256 * le_value rest

/-- The `__u32` local after `__u32 x = 0; bpf_probe_read(&x, sizeof(x), ctx + off)`:
the four bytes at `off`, and `0` when the read fails (the local was
initialised to `0` and a failed read zero-fills it). -/
def read_u32 (ctx : List Nat) (off : Nat) : Nat :=
  match bpf_probe_read ctx 4 off with
  | some bytes => le_value bytes
  | none => 0

/-- Helper `bpf_get_current_pid_tgid`. -/
def bpf_get_current_pid_tgid (cur : Current) : Nat := cur.pid_tgid % U64

/-- Helper `bpf_ktime_get_ns`. -/
def bpf_ktime_get_ns (cur : Current) : Nat := cur.ktime % U64

/-- Helper `bpf_get_current_comm(buf, size)`: the task name is copied as a
string, that is the bytes before its first NUL and at most `size - 1` of
them, and the rest of the buffer is filled with zero bytes; the helper
guarantees that the buffer is NUL-terminated. -/
def bpf_get_current_comm (cur : Current) (size : Nat) : List Nat :=
  let name := (((cur.comm.map (· % 256)).takeWhile (· != 0)).take (size - 1))
  name ++ List.replicate (size - name.length) 0

/-- Helper `bpf_ringbuf_reserve(&events, size, 0)`: counts the attempt. Whether
space is found is decided by the ring buffer, not by the handler: `slot` is
that outcome, `none` for a failed reservation and otherwise the previous
contents of the memory handed out. A successful reservation remembers the
size it was made with. -/
def bpf_ringbuf_reserve {α : Type} (st : State) (size : Nat) (slot : Option α) :
    Option (Nat × α) × State :=
  (slot.map (fun e => (size, e)), { st with reserve_calls := st.reserve_calls + 1 })

/-- Helper `bpf_ringbuf_submit(e, 0)`: the record becomes visible to the reader. -/
def bpf_ringbuf_submit (st : State) (r : Record) : State :=
  { st with events := st.events ++ [r] }

/-! ## The handlers -/

/-- Handler `trace_kill` (tracepoint `sys_enter_kill`). -/
def trace_kill (ctx : List Nat) (cur : Current) (slot : Option signal_event)
    (st : State) : Int × State :=
  let pid := read_u32 ctx 16
  let sig := read_u32 ctx 24
  if sig = 0 then (0, st)
  else
    match bpf_map_lookup_elem st.signal_filter sig with
    | some 0 => (0, st)
    | _ =>
      match bpf_ringbuf_reserve st sizeof_signal_event slot with
      | (none, st) => (0, st)
      | (some (size, e), st) =>
        let pid_tgid := bpf_get_current_pid_tgid cur
        let e := { e with sender_pid := (pid_tgid &&& 0xFFFFFFFF) % U32 }
        let e := { e with sender_tgid := (pid_tgid >>> 32) % U32 }
        let e := { e with target_pid := pid }
        let e := { e with target_tgid := pid }
        let e := { e with signal := sig }
        let e := { e with timestamp := bpf_ktime_get_ns cur }
        let e := { e with sender_comm := bpf_get_current_comm cur TASK_COMM_LEN }
        let e := { e with target_comm := List.replicate TASK_COMM_LEN 0 }
        (0, bpf_ringbuf_submit st (Record.sig size e))

/-- Handler `trace_tkill` (tracepoint `sys_enter_tkill`). -/
def trace_tkill (ctx : List Nat) (cur : Current) (slot : Option signal_event)
    (st : State) : Int × State :=
  let tid := read_u32 ctx 16
  let sig := read_u32 ctx 24
  if sig = 0 then (0, st)
  else
    match bpf_map_lookup_elem st.signal_filter sig with
    | some 0 => (0, st)
    | _ =>
      match bpf_ringbuf_reserve st sizeof_signal_event slot with
      | (none, st) => (0, st)
      | (some (size, e), st) =>
        let pid_tgid := bpf_get_current_pid_tgid cur
        let e := { e with sender_pid := (pid_tgid &&& 0xFFFFFFFF) % U32 }
        let e := { e with sender_tgid := (pid_tgid >>> 32) % U32 }
        let e := { e with target_pid := tid }
        let e := { e with target_tgid := tid }
        let e := { e with signal := sig }
        let e := { e with timestamp := bpf_ktime_get_ns cur }
        let e := { e with sender_comm := bpf_get_current_comm cur TASK_COMM_LEN }
        let e := { e with target_comm := List.replicate TASK_COMM_LEN 0 }
        (0, bpf_ringbuf_submit st (Record.sig size e))

/-- Handler `trace_tgkill` (tracepoint `sys_enter_tgkill`). -/
def trace_tgkill (ctx : List Nat) (cur : Current) (slot : Option signal_event)
    (st : State) : Int × State :=
  let tgid := read_u32 ctx 16
  let tid := read_u32 ctx 24
  let sig := read_u32 ctx 32
  if sig = 0 then (0, st)
  else
    match bpf_map_lookup_elem st.signal_filter sig with
    | some 0 => (0, st)
    | _ =>
      match bpf_ringbuf_reserve st sizeof_signal_event slot with
      | (none, st) => (0, st)
      | (some (size, e), st) =>
        let pid_tgid := bpf_get_current_pid_tgid cur
        let e := { e with sender_pid := (pid_tgid &&& 0xFFFFFFFF) % U32 }
        let e := { e with sender_tgid := (pid_tgid >>> 32) % U32 }
        let e := { e with target_pid := tid }
        let e := { e with target_tgid := tgid }
        let e := { e with signal := sig }
        let e := { e with timestamp := bpf_ktime_get_ns cur }
        let e := { e with sender_comm := bpf_get_current_comm cur TASK_COMM_LEN }
        let e := { e with target_comm := List.replicate TASK_COMM_LEN 0 }
        (0, bpf_ringbuf_submit st (Record.sig size e))

/-- Handler `trace_fork` (tracepoint `sched_process_fork`). -/
def trace_fork (cur : Current) (slot : Option process_event) (st : State) :
    Int × State :=
  match bpf_ringbuf_reserve st sizeof_process_event slot with
  | (none, st) => (0, st)
  | (some (size, e), st) =>
    let pid_tgid := bpf_get_current_pid_tgid cur
    let e := { e with pid := (pid_tgid &&& 0xFFFFFFFF) % U32 }
    let e := { e with tgid := (pid_tgid >>> 32) % U32 }
    let e := { e with ppid := 0 }
    let e := { e with timestamp := bpf_ktime_get_ns cur }
    let e := { e with event_type := 0 }
    let e := { e with exit_code := 0 }
    let e := { e with comm := bpf_get_current_comm cur TASK_COMM_LEN }
    (0, bpf_ringbuf_submit st (Record.proc size e))

/-- Handler `trace_exit` (tracepoint `sched_process_exit`). -/
def trace_exit (cur : Current) (slot : Option process_event) (st : State) :
    Int × State :=
  match bpf_ringbuf_reserve st sizeof_process_event slot with
  | (none, st) => (0, st)
  | (some (size, e), st) =>
    let pid_tgid := bpf_get_current_pid_tgid cur
    let e := { e with pid := (pid_tgid &&& 0xFFFFFFFF) % U32 }
    let e := { e with tgid := (pid_tgid >>> 32) % U32 }
    let e := { e with ppid := 0 }
    let e := { e with timestamp := bpf_ktime_get_ns cur }
    let e := { e with event_type := 1 }
    let e := { e with exit_code := 0 }
    let e := { e with comm := bpf_get_current_comm cur TASK_COMM_LEN }
    (0, bpf_ringbuf_submit st (Record.proc size e))

/-! ## Observations on a handler run -/

/-- Records that a step from `st` to `st'` added to the ring buffer. -/
def emitted (st st' : State) : List Record := st'.events.drop st.events.length

/-- Timestamp field of a record. -/
def Record.timestamp : Record → Nat
  | Record.sig _ e => e.timestamp
  | Record.proc _ e => e.timestamp

/-! ## Concrete inputs -/

/-- The first `n` little-endian bytes of `v`. -/
def le_bytes : Nat → Nat → List Nat
  | 0, _ => []
  | n + 1, v => v % 256 :: le_bytes n (v / 256)

/-- Context of a `sys_enter_*` tracepoint: 8 bytes of common header, the
syscall number in 8 bytes, then the syscall arguments in 8 bytes each. -/
def sys_enter_ctx (id : Nat) (args : List Nat) : List Nat :=
  List.replicate 8 0 ++ le_bytes 8 id ++ (args.map (le_bytes 8)).flatten

/-- A reserved slot that still holds stale bytes. -/
def stale_signal_slot : signal_event :=
  ⟨0xDEAD, 0xDEAD, 0xDEAD, 0xDEAD, 0xDEAD, [0xFF], [0xFF], 0xDEAD⟩

/-- A reserved slot that still holds stale bytes. -/
def stale_process_slot : process_event :=
  ⟨0xDEAD, 0xDEAD, 0xDEAD, [0xFF], 0xDEAD, 0xFF, 0xDEAD⟩

/-- A freshly loaded program: array map as created, empty ring buffer. -/
def State.loaded : State := ⟨signal_filter_created, [], 0⟩

/-- The table after the control plane stored `{9: 0}` and nothing else. -/
def table_9_suppressed : List Nat := bpf_map_update_elem signal_filter_created 9 0

/-- The table after the control plane stored `{9: 0, 15: 1}`. -/
def table_9_suppressed_15_allowed : List Nat :=
  bpf_map_update_elem (bpf_map_update_elem signal_filter_created 9 0) 15 1

/-- A caller with pid 100 in thread group 100, named `sh`, at time 12345. -/
def caller_100 : Current := ⟨100 * 2 ^ 32 + 100, [115, 104], 12345⟩

/-! ## Normal form of the three signal handlers -/

/-- The struct a signal handler has written when it submits. -/
def signal_record (target_pid target_tgid sig : Nat) (cur : Current) : signal_event :=
  { sender_pid := (bpf_get_current_pid_tgid cur &&& 0xFFFFFFFF) % U32
    sender_tgid := (bpf_get_current_pid_tgid cur >>> 32) % U32
    target_pid := target_pid
    target_tgid := target_tgid
    signal := sig
    sender_comm := bpf_get_current_comm cur TASK_COMM_LEN
    target_comm := List.replicate TASK_COMM_LEN 0
    timestamp := bpf_ktime_get_ns cur }

/-- The decision a signal handler takes: `true` when it reaches the submit. -/
def signal_emits (sig : Nat) (slot : Option signal_event) (st : State) : Bool :=
  sig != 0 && bpf_map_lookup_elem st.signal_filter sig != some 0 && slot.isSome

/-- The struct a lifecycle handler has written when it submits. -/
def process_record (event_type : Nat) (cur : Current) : process_event :=
  { pid := (bpf_get_current_pid_tgid cur &&& 0xFFFFFFFF) % U32
    tgid := (bpf_get_current_pid_tgid cur >>> 32) % U32
    ppid := 0
    comm := bpf_get_current_comm cur TASK_COMM_LEN
    timestamp := bpf_ktime_get_ns cur
    event_type := event_type
    exit_code := 0 }

/-- Normal form of a signal handler run, in terms of the extracted arguments. -/
def signal_outcome (target_pid target_tgid sig : Nat) (cur : Current)
    (slot : Option signal_event) (st : State) : Int × State :=
  if sig = 0 ∨ bpf_map_lookup_elem st.signal_filter sig = some 0 then (0, st)
  else if slot.isSome then
    (0, ⟨st.signal_filter,
         st.events ++ [Record.sig sizeof_signal_event
                         (signal_record target_pid target_tgid sig cur)],
         st.reserve_calls + 1⟩)
  else (0, ⟨st.signal_filter, st.events, st.reserve_calls + 1⟩)

/-- Normal form of a lifecycle handler run. -/
def process_outcome (event_type : Nat) (cur : Current)
    (slot : Option process_event) (st : State) : Int × State :=
  if slot.isSome then
    (0, ⟨st.signal_filter,
         st.events ++ [Record.proc sizeof_process_event (process_record event_type cur)],
         st.reserve_calls + 1⟩)
  else (0, ⟨st.signal_filter, st.events, st.reserve_calls + 1⟩)

/-! ## Sequential runs -/

/-- One step of a sequential run: a handler invocation with its inputs, or a
write of the control plane into the filter table. -/
inductive Step where
  | kill (ctx : List Nat) (cur : Current) (slot : Option signal_event)
  | tkill (ctx : List Nat) (cur : Current) (slot : Option signal_event)
  | tgkill (ctx : List Nat) (cur : Current) (slot : Option signal_event)
  | fork (cur : Current) (slot : Option process_event)
  | exit (cur : Current) (slot : Option process_event)
  | control (key value : Nat)
deriving DecidableEq, Repr

/-- State after one step. -/
def Step.apply : Step → State → State
  | Step.kill ctx cur slot, st => (trace_kill ctx cur slot st).2
  | Step.tkill ctx cur slot, st => (trace_tkill ctx cur slot st).2
  | Step.tgkill ctx cur slot, st => (trace_tgkill ctx cur slot st).2
  | Step.fork cur slot, st => (trace_fork cur slot st).2
  | Step.exit cur slot, st => (trace_exit cur slot st).2
  | Step.control key value, st =>
    { st with signal_filter := bpf_map_update_elem st.signal_filter key value }

/-- The clock as a handler invocation would read it (none for a control step). -/
def Step.clock : Step → Option Nat
  | Step.kill _ cur _ => some (bpf_ktime_get_ns cur)
  | Step.tkill _ cur _ => some (bpf_ktime_get_ns cur)
  | Step.tgkill _ cur _ => some (bpf_ktime_get_ns cur)
  | Step.fork cur _ => some (bpf_ktime_get_ns cur)
  | Step.exit cur _ => some (bpf_ktime_get_ns cur)
  | Step.control _ _ => none

/-- State after a sequential run of steps. -/
def run : List Step → State → State
  | [], st => st
  | step :: rest, st => run rest (step.apply st)

/-- Clock readings of the handler invocations of a run, in order. -/
def clock_readings (steps : List Step) : List Nat := steps.filterMap Step.clock

/-- A signal handler as a function of context, helper answers, reservation
outcome and state. -/
abbrev SignalHandler : Type :=
  List Nat → Current → Option signal_event → State → Int × State

/-- A lifecycle handler as a function of helper answers, reservation outcome
and state. -/
abbrev ProcessHandler : Type :=
  Current → Option process_event → State → Int × State

/-- The three signal handlers, each with the context offset from which it
reads its signal argument. -/
def signal_handlers : List (Nat × SignalHandler) :=
  [(24, trace_kill), (24, trace_tkill), (32, trace_tgkill)]

/-- The two lifecycle handlers, each with the event type it stamps. -/
def process_handlers : List (Nat × ProcessHandler) :=
  [(0, trace_fork), (1, trace_exit)]

/-! ## The record layouts as the specification lists them -/

/-- Widths in bytes of the SignalEvent fields, following the specification's
listing and its order: sender_pid, sender_tgid, target_pid, target_tgid,
signal (u32 each), sender_comm, target_comm (16 bytes each), timestamp_ns
(u64). -/
def spec_signal_event_widths : List Nat := [4, 4, 4, 4, 4, 16, 16, 8]

/-- Widths in bytes of the ProcessEvent fields, following the specification's
listing and its order: pid, tgid, ppid (u32 each), comm (16 bytes),
timestamp_ns (u64), event_type (u8), exit_code (u32). -/
def spec_process_event_widths : List Nat := [4, 4, 4, 16, 8, 1, 4]

/-- Offsets of a layout that is exactly its listed fields, one after the
other. -/
def spec_offsets : Nat → List Nat → List Nat
  | _, [] => []
  | off, w :: rest => off :: spec_offsets (off + w) rest

/-- Size of a layout that is exactly its listed fields. -/
def spec_size (widths : List Nat) : Nat := widths.sum

/-- Size a submitted record was reserved with. -/
def Record.size : Record → Nat
  | Record.sig size _ => size
  | Record.proc size _ => size

/-- A caller named `sigwatch-test-1`: a task name of the greatest length, 15
bytes and the terminator. -/
def caller_named : Current :=
  ⟨100 * 2 ^ 32 + 100,
   [115, 105, 103, 119, 97, 116, 99, 104, 45, 116, 101, 115, 116, 45, 49, 0], 12345⟩

/-- A caller whose name bytes are not a task name: 17 nonzero bytes. -/
def caller_overlong : Current :=
  ⟨100 * 2 ^ 32 + 100,
   [115, 105, 103, 119, 97, 116, 99, 104, 45, 116, 101, 115, 116, 45, 48, 49, 50], 12345⟩

/-- A caller named `sh` whose array still holds bytes of an older, longer
name after the terminator. -/
def caller_stale_tail : Current :=
  ⟨100 * 2 ^ 32 + 100,
   [115, 104, 0, 119, 97, 116, 99, 104, 0, 0, 0, 0, 0, 0, 0, 0], 12345⟩

/-- A reserved slot whose previous contents are all zero. -/
def zero_signal_slot : signal_event := ⟨0, 0, 0, 0, 0, [], [], 0⟩

/-- A reserved slot whose previous contents are all zero. -/
def zero_process_slot : process_event := ⟨0, 0, 0, [], 0, 0, 0⟩

/-! ## The reserved slot as bytes

The handlers above work on the named members of a record. What the reader of
the ring buffer receives is the memory of the slot; the definitions below
follow the same five functions store by store on that memory. -/

/-- Store of `bytes` at offset `off` of the memory `mem`; every other byte of
`mem` stays as it is. -/
def store (mem : List Nat) (off : Nat) (bytes : List Nat) : List Nat :=
  (List.range mem.length).map (fun i =>
    if off ≤ i ∧ i < off + bytes.length then bytes.getD (i - off) 0 else mem.getD i 0)

/-- Load of `size` bytes at offset `off` of the memory `mem`. -/
def load (mem : List Nat) (off size : Nat) : List Nat :=
  (List.range size).map (fun j => mem.getD (off + j) 0)

/-- Offset of the `i`-th member of `struct signal_event`. -/
def signal_event_offset (i : Nat) : Nat := (c_offsets 0 signal_event_members).getD i 0

/-- Offset of the `i`-th member of `struct process_event`. -/
def process_event_offset (i : Nat) : Nat := (c_offsets 0 process_event_members).getD i 0

/-- Helper `bpf_ringbuf_reserve(&events, size, 0)` on memory: the slot handed
out is `size` bytes long and holds whatever the ring buffer held there
before; `slot` is that outcome, `none` for a failed reservation. -/
def ringbuf_reserve_bytes (size : Nat) (slot : Option (List Nat)) : Option (List Nat) :=
  slot.map (fun m => (List.range size).map (fun i => m.getD i 0 % 256))

/-- Handler `trace_kill` on the memory of the slot: the return value and the
bytes handed to `bpf_ringbuf_submit`, if any. -/
def trace_kill_bytes (ctx : List Nat) (cur : Current) (slot : Option (List Nat))
    (st : State) : Int × Option (List Nat) :=
  let pid := read_u32 ctx 16
  let sig := read_u32 ctx 24
  if sig = 0 then (0, none)
  else
    match bpf_map_lookup_elem st.signal_filter sig with
    | some 0 => (0, none)
    | _ =>
      match ringbuf_reserve_bytes sizeof_signal_event slot with
      | none => (0, none)
      | some e =>
        let pid_tgid := bpf_get_current_pid_tgid cur
        let e := store e (signal_event_offset 0) (le_bytes 4 ((pid_tgid &&& 0xFFFFFFFF) % U32))
        let e := store e (signal_event_offset 1) (le_bytes 4 ((pid_tgid >>> 32) % U32))
        let e := store e (signal_event_offset 2) (le_bytes 4 pid)
        let e := store e (signal_event_offset 3) (le_bytes 4 pid)
        let e := store e (signal_event_offset 4) (le_bytes 4 sig)
        let e := store e (signal_event_offset 7) (le_bytes 8 (bpf_ktime_get_ns cur))
        let e := store e (signal_event_offset 5) (bpf_get_current_comm cur TASK_COMM_LEN)
        let e := store e (signal_event_offset 6) (List.replicate TASK_COMM_LEN 0)
        (0, some e)

/-- Handler `trace_tkill` on the memory of the slot. -/
def trace_tkill_bytes (ctx : List Nat) (cur : Current) (slot : Option (List Nat))
    (st : State) : Int × Option (List Nat) :=
  let tid := read_u32 ctx 16
  let sig := read_u32 ctx 24
  if sig = 0 then (0, none)
  else
    match bpf_map_lookup_elem st.signal_filter sig with
    | some 0 => (0, none)
    | _ =>
      match ringbuf_reserve_bytes sizeof_signal_event slot with
      | none => (0, none)
      | some e =>
        let pid_tgid := bpf_get_current_pid_tgid cur
        let e := store e (signal_event_offset 0) (le_bytes 4 ((pid_tgid &&& 0xFFFFFFFF) % U32))
        let e := store e (signal_event_offset 1) (le_bytes 4 ((pid_tgid >>> 32) % U32))
        let e := store e (signal_event_offset 2) (le_bytes 4 tid)
        let e := store e (signal_event_offset 3) (le_bytes 4 tid)
        let e := store e (signal_event_offset 4) (le_bytes 4 sig)
        let e := store e (signal_event_offset 7) (le_bytes 8 (bpf_ktime_get_ns cur))
        let e := store e (signal_event_offset 5) (bpf_get_current_comm cur TASK_COMM_LEN)
        let e := store e (signal_event_offset 6) (List.replicate TASK_COMM_LEN 0)
        (0, some e)

/-- Handler `trace_tgkill` on the memory of the slot. -/
def trace_tgkill_bytes (ctx : List Nat) (cur : Current) (slot : Option (List Nat))
    (st : State) : Int × Option (List Nat) :=
  let tgid := read_u32 ctx 16
  let tid := read_u32 ctx 24
  let sig := read_u32 ctx 32
  if sig = 0 then (0, none)
  else
    match bpf_map_lookup_elem st.signal_filter sig with
    | some 0 => (0, none)
    | _ =>
      match ringbuf_reserve_bytes sizeof_signal_event slot with
      | none => (0, none)
      | some e =>
        let pid_tgid := bpf_get_current_pid_tgid cur
        let e := store e (signal_event_offset 0) (le_bytes 4 ((pid_tgid &&& 0xFFFFFFFF) % U32))
        let e := store e (signal_event_offset 1) (le_bytes 4 ((pid_tgid >>> 32) % U32))
        let e := store e (signal_event_offset 2) (le_bytes 4 tid)
        let e := store e (signal_event_offset 3) (le_bytes 4 tgid)
        let e := store e (signal_event_offset 4) (le_bytes 4 sig)
        let e := store e (signal_event_offset 7) (le_bytes 8 (bpf_ktime_get_ns cur))
        let e := store e (signal_event_offset 5) (bpf_get_current_comm cur TASK_COMM_LEN)
        let e := store e (signal_event_offset 6) (List.replicate TASK_COMM_LEN 0)
        (0, some e)

/-- Handler `trace_fork` on the memory of the slot. -/
def trace_fork_bytes (cur : Current) (slot : Option (List Nat)) :
    Int × Option (List Nat) :=
  match ringbuf_reserve_bytes sizeof_process_event slot with
  | none => (0, none)
  | some e =>
    let pid_tgid := bpf_get_current_pid_tgid cur
    let e := store e (process_event_offset 0) (le_bytes 4 ((pid_tgid &&& 0xFFFFFFFF) % U32))
    let e := store e (process_event_offset 1) (le_bytes 4 ((pid_tgid >>> 32) % U32))
    let e := store e (process_event_offset 2) (le_bytes 4 0)
    let e := store e (process_event_offset 4) (le_bytes 8 (bpf_ktime_get_ns cur))
    let e := store e (process_event_offset 5) (le_bytes 1 0)
    let e := store e (process_event_offset 6) (le_bytes 4 0)
    let e := store e (process_event_offset 3) (bpf_get_current_comm cur TASK_COMM_LEN)
    (0, some e)

/-- Handler `trace_exit` on the memory of the slot. -/
def trace_exit_bytes (cur : Current) (slot : Option (List Nat)) :
    Int × Option (List Nat) :=
  match ringbuf_reserve_bytes sizeof_process_event slot with
  | none => (0, none)
  | some e =>
    let pid_tgid := bpf_get_current_pid_tgid cur
    let e := store e (process_event_offset 0) (le_bytes 4 ((pid_tgid &&& 0xFFFFFFFF) % U32))
    let e := store e (process_event_offset 1) (le_bytes 4 ((pid_tgid >>> 32) % U32))
    let e := store e (process_event_offset 2) (le_bytes 4 0)
    let e := store e (process_event_offset 4) (le_bytes 8 (bpf_ktime_get_ns cur))
    let e := store e (process_event_offset 5) (le_bytes 1 1)
    let e := store e (process_event_offset 6) (le_bytes 4 0)
    let e := store e (process_event_offset 3) (bpf_get_current_comm cur TASK_COMM_LEN)
    (0, some e)

/-- The named members of a SignalEvent as a reader decodes them from the
bytes of a record. -/
def signal_event_load (m : List Nat) : signal_event :=
  { sender_pid := le_value (load m (signal_event_offset 0) 4)
    sender_tgid := le_value (load m (signal_event_offset 1) 4)
    target_pid := le_value (load m (signal_event_offset 2) 4)
    target_tgid := le_value (load m (signal_event_offset 3) 4)
    signal := le_value (load m (signal_event_offset 4) 4)
    sender_comm := load m (signal_event_offset 5) TASK_COMM_LEN
    target_comm := load m (signal_event_offset 6) TASK_COMM_LEN
    timestamp := le_value (load m (signal_event_offset 7) 8) }

/-- The named members of a ProcessEvent as a reader decodes them from the
bytes of a record. -/
def process_event_load (m : List Nat) : process_event :=
  { pid := le_value (load m (process_event_offset 0) 4)
    tgid := le_value (load m (process_event_offset 1) 4)
    ppid := le_value (load m (process_event_offset 2) 4)
    comm := load m (process_event_offset 3) TASK_COMM_LEN
    timestamp := le_value (load m (process_event_offset 4) 8)
    event_type := le_value (load m (process_event_offset 5) 1)
    exit_code := le_value (load m (process_event_offset 6) 4) }

/-- Whether byte `i` of a C struct that starts at `off` belongs to one of its
members. -/
def c_covered : Nat → List (Nat × Nat) → Nat → Bool
  | _, [], _ => false
  | off, (sz, al) :: rest, i =>
    (decide (align_up off al ≤ i) && decide (i < align_up off al + sz))
      || c_covered (align_up off al + sz) rest i

/-- Bytes of a SignalEvent that belong to no member. -/
def signal_event_padding (i : Nat) : Bool :=
  decide (i < sizeof_signal_event) && !c_covered 0 signal_event_members i

/-- Bytes of a ProcessEvent that belong to no member. -/
def process_event_padding (i : Nat) : Bool :=
  decide (i < sizeof_process_event) && !c_covered 0 process_event_members i

/-- The memory of a slot once the members of `e` have been stored into it, in
the order of the stores of the signal handlers. -/
def signal_event_store (e : signal_event) (m : List Nat) : List Nat :=
  let m := store m (signal_event_offset 0) (le_bytes 4 e.sender_pid)
  let m := store m (signal_event_offset 1) (le_bytes 4 e.sender_tgid)
  let m := store m (signal_event_offset 2) (le_bytes 4 e.target_pid)
  let m := store m (signal_event_offset 3) (le_bytes 4 e.target_tgid)
  let m := store m (signal_event_offset 4) (le_bytes 4 e.signal)
  let m := store m (signal_event_offset 7) (le_bytes 8 e.timestamp)
  let m := store m (signal_event_offset 5) e.sender_comm
  store m (signal_event_offset 6) e.target_comm

/-- The memory of a slot once the members of `e` have been stored into it, in
the order of the stores of the lifecycle handlers. -/
def process_event_store (e : process_event) (m : List Nat) : List Nat :=
  let m := store m (process_event_offset 0) (le_bytes 4 e.pid)
  let m := store m (process_event_offset 1) (le_bytes 4 e.tgid)
  let m := store m (process_event_offset 2) (le_bytes 4 e.ppid)
  let m := store m (process_event_offset 4) (le_bytes 8 e.timestamp)
  let m := store m (process_event_offset 5) (le_bytes 1 e.event_type)
  let m := store m (process_event_offset 6) (le_bytes 4 e.exit_code)
  store m (process_event_offset 3) e.comm

/-- Normal form of a signal handler run on memory. -/
def signal_outcome_bytes (target_pid target_tgid sig : Nat) (cur : Current)
    (slot : Option (List Nat)) (st : State) : Int × Option (List Nat) :=
  if sig = 0 ∨ bpf_map_lookup_elem st.signal_filter sig = some 0 then (0, none)
  else
    (0, (ringbuf_reserve_bytes sizeof_signal_event slot).map
          (signal_event_store (signal_record target_pid target_tgid sig cur)))

/-- Normal form of a lifecycle handler run on memory. -/
def process_outcome_bytes (event_type : Nat) (cur : Current)
    (slot : Option (List Nat)) : Int × Option (List Nat) :=
  (0, (ringbuf_reserve_bytes sizeof_process_event slot).map
        (process_event_store (process_record event_type cur)))

/-- The three signal handlers on memory, paired with their counterparts on
named members. -/
def signal_handlers_bytes :
    List (SignalHandler
      × (List Nat → Current → Option (List Nat) → State → Int × Option (List Nat))) :=
  [(trace_kill, trace_kill_bytes), (trace_tkill, trace_tkill_bytes),
   (trace_tgkill, trace_tgkill_bytes)]

/-- The two lifecycle handlers on memory, paired with their counterparts on
named members. -/
def process_handlers_bytes :
    List (ProcessHandler × (Current → Option (List Nat) → Int × Option (List Nat))) :=
  [(trace_fork, trace_fork_bytes), (trace_exit, trace_exit_bytes)]

/-- A slot whose bytes were all `0xFF` before the reservation. -/
def stale_bytes_slot : List Nat := List.replicate 64 0xFF

/-- A slot whose bytes were all zero before the reservation. -/
def zero_bytes_slot : List Nat := List.replicate 64 0

/-! ## Helper lemmas -/

theorem trace_kill_eq (ctx : List Nat) (cur : Current) (slot : Option signal_event)
    (st : State) :
    trace_kill ctx cur slot st
      = signal_outcome (read_u32 ctx 16) (read_u32 ctx 16) (read_u32 ctx 24) cur slot st := by
  unfold trace_kill signal_outcome
  by_cases h0 : read_u32 ctx 24 = 0
  · simp [h0]
  · cases hl : bpf_map_lookup_elem st.signal_filter (read_u32 ctx 24) with
    | none =>
      cases slot <;>
        simp [h0, hl, bpf_ringbuf_reserve, bpf_ringbuf_submit, signal_record]
    | some v =>
      cases v with
      | zero => simp [h0, hl]
      | succ n =>
        cases slot <;>
          simp [h0, hl, bpf_ringbuf_reserve, bpf_ringbuf_submit, signal_record]

theorem trace_tkill_eq (ctx : List Nat) (cur : Current) (slot : Option signal_event)
    (st : State) :
    trace_tkill ctx cur slot st
      = signal_outcome (read_u32 ctx 16) (read_u32 ctx 16) (read_u32 ctx 24) cur slot st := by
  unfold trace_tkill signal_outcome
  by_cases h0 : read_u32 ctx 24 = 0
  · simp [h0]
  · cases hl : bpf_map_lookup_elem st.signal_filter (read_u32 ctx 24) with
    | none =>
      cases slot <;>
        simp [h0, hl, bpf_ringbuf_reserve, bpf_ringbuf_submit, signal_record]
    | some v =>
      cases v with
      | zero => simp [h0, hl]
      | succ n =>
        cases slot <;>
          simp [h0, hl, bpf_ringbuf_reserve, bpf_ringbuf_submit, signal_record]

theorem trace_tgkill_eq (ctx : List Nat) (cur : Current) (slot : Option signal_event)
    (st : State) :
    trace_tgkill ctx cur slot st
      = signal_outcome (read_u32 ctx 24) (read_u32 ctx 16) (read_u32 ctx 32) cur slot st := by
  unfold trace_tgkill signal_outcome
  by_cases h0 : read_u32 ctx 32 = 0
  · simp [h0]
  · cases hl : bpf_map_lookup_elem st.signal_filter (read_u32 ctx 32) with
    | none =>
      cases slot <;>
        simp [h0, hl, bpf_ringbuf_reserve, bpf_ringbuf_submit, signal_record]
    | some v =>
      cases v with
      | zero => simp [h0, hl]
      | succ n =>
        cases slot <;>
          simp [h0, hl, bpf_ringbuf_reserve, bpf_ringbuf_submit, signal_record]

theorem trace_fork_eq (cur : Current) (slot : Option process_event) (st : State) :
    trace_fork cur slot st = process_outcome 0 cur slot st := by
  unfold trace_fork process_outcome
  cases slot <;> simp [bpf_ringbuf_reserve, bpf_ringbuf_submit, process_record]

theorem trace_exit_eq (cur : Current) (slot : Option process_event) (st : State) :
    trace_exit cur slot st = process_outcome 1 cur slot st := by
  unfold trace_exit process_outcome
  cases slot <;> simp [bpf_ringbuf_reserve, bpf_ringbuf_submit, process_record]

theorem emitted_append (st : State) (f : List Nat) (l : List Record) (n : Nat) :
    emitted st ⟨f, st.events ++ l, n⟩ = l := by
  simp [emitted]

theorem emitted_same (st : State) (f : List Nat) (n : Nat) :
    emitted st ⟨f, st.events, n⟩ = [] := by
  simp [emitted]

theorem emitted_self (st : State) : emitted st st = [] := by
  simp [emitted]

/-- What a signal handler adds to the ring buffer. -/
theorem emitted_signal_outcome (tp tt sig : Nat) (cur : Current)
    (slot : Option signal_event) (st : State) :
    emitted st (signal_outcome tp tt sig cur slot st).2
      = if signal_emits sig slot st then
          [Record.sig sizeof_signal_event (signal_record tp tt sig cur)]
        else [] := by
  unfold signal_outcome signal_emits
  by_cases h0 : sig = 0
  · simp [h0, emitted_self]
  · by_cases hl : bpf_map_lookup_elem st.signal_filter sig = some 0
    · simp [h0, hl, emitted_self]
    · cases slot <;> simp [h0, hl, emitted_append, emitted_same]

/-- What a lifecycle handler adds to the ring buffer. -/
theorem emitted_process_outcome (ty : Nat) (cur : Current)
    (slot : Option process_event) (st : State) :
    emitted st (process_outcome ty cur slot st).2
      = if slot.isSome then [Record.proc sizeof_process_event (process_record ty cur)]
        else [] := by
  unfold process_outcome
  cases slot <;> simp [emitted_append, emitted_same]

theorem signal_emits_iff (sig : Nat) (slot : Option signal_event) (st : State) :
    signal_emits sig slot st = true
      ↔ sig ≠ 0 ∧ bpf_map_lookup_elem st.signal_filter sig ≠ some 0 ∧ slot ≠ none := by
  unfold signal_emits
  cases slot <;> simp

theorem lookup_out_of_range (values : List Nat) (key : Nat) (h : MAX_SIGNAL ≤ key) :
    bpf_map_lookup_elem values key = none := by
  unfold bpf_map_lookup_elem
  simp [Nat.not_lt.mpr h]

theorem lookup_created (key : Nat) (h : key < MAX_SIGNAL) :
    bpf_map_lookup_elem signal_filter_created key = some 0 := by
  unfold bpf_map_lookup_elem signal_filter_created
  simp [h, List.getD_eq_getElem?_getD, List.getElem?_replicate]

/-- Every signal handler is `signal_outcome` of its extracted arguments. -/
theorem signal_handlers_eq (h : Nat × SignalHandler) (hh : h ∈ signal_handlers) :
    ∃ op ot : Nat, ∀ ctx cur slot st,
      h.2 ctx cur slot st
        = signal_outcome (read_u32 ctx op) (read_u32 ctx ot) (read_u32 ctx h.1) cur slot st := by
  simp only [signal_handlers, List.mem_cons, List.mem_singleton, List.not_mem_nil,
    or_false] at hh
  rcases hh with rfl | rfl | rfl
  · exact ⟨16, 16, trace_kill_eq⟩
  · exact ⟨16, 16, trace_tkill_eq⟩
  · exact ⟨24, 16, trace_tgkill_eq⟩

/-- Every lifecycle handler is `process_outcome` of its event type. -/
theorem process_handlers_eq (h : Nat × ProcessHandler) (hh : h ∈ process_handlers) :
    ∀ cur slot st, h.2 cur slot st = process_outcome h.1 cur slot st := by
  simp only [process_handlers, List.mem_cons, List.mem_singleton, List.not_mem_nil,
    or_false] at hh
  rcases hh with rfl | rfl
  · exact trace_fork_eq
  · exact trace_exit_eq

/-- Low half of the combined identifier, as stored into a `__u32`. -/
theorem low_half (x : Nat) : ((x % U64) &&& 0xFFFFFFFF) % U32 = x % U32 := by
  have h : (0xFFFFFFFF : Nat) = 2 ^ 32 - 1 := by norm_num
  rw [h, Nat.and_pow_two_sub_one_eq_mod]
  unfold U32 U64
  omega

/-- High half of the combined identifier, as stored into a `__u32`. -/
theorem high_half (x : Nat) : ((x % U64) >>> 32) % U32 = x % U64 / U32 := by
  rw [Nat.shiftRight_eq_div_pow]
  apply Nat.mod_eq_of_lt
  apply Nat.div_lt_of_lt_mul
  have : x % U64 < U64 := Nat.mod_lt _ (by unfold U64; positivity)
  unfold U32 U64 at *
  omega

/-- A thread with ids `pid`, `tgid` is reported by the helper as `tgid << 32 | pid`,
and the two stores of a handler recover exactly `pid` and `tgid`. -/
theorem identity_halves (cur : Current) (pid tgid : Nat) (hp : pid < U32)
    (ht : tgid < U32) (hc : cur.pid_tgid = tgid * U32 + pid) :
    ((bpf_get_current_pid_tgid cur) &&& 0xFFFFFFFF) % U32 = pid
    ∧ ((bpf_get_current_pid_tgid cur) >>> 32) % U32 = tgid := by
  unfold bpf_get_current_pid_tgid
  rw [low_half, high_half, hc]
  unfold U32 U64 at *
  omega

theorem le_value_lt (bs : List Nat) (hb : ∀ b ∈ bs, b < 256) :
    le_value bs < 256 ^ bs.length := by
  induction bs with
  | nil => simp [le_value]
  | cons b rest ih =>
    have h1 : b < 256 := hb b (List.mem_cons_self _ _)
    have h2 : le_value rest < 256 ^ rest.length :=
      ih (fun x hx => hb x (List.mem_cons_of_mem _ hx))
    simp only [le_value, List.length_cons, pow_succ]
    omega

/-- An extracted argument always fits a `__u32`. -/
theorem read_u32_lt (ctx : List Nat) (off : Nat) : read_u32 ctx off < U32 := by
  unfold read_u32 bpf_probe_read
  split_ifs with h
  · have hlen : (List.map (· % 256) (List.take 4 (List.drop off ctx))).length = 4 := by
      simp only [List.length_map, List.length_take, List.length_drop]
      omega
    have hb : ∀ b ∈ List.map (· % 256) (List.take 4 (List.drop off ctx)), b < 256 := by
      intro b hb
      rw [List.mem_map] at hb
      obtain ⟨a, _, rfl⟩ := hb
      exact Nat.mod_lt _ (by norm_num)
    have := le_value_lt _ hb
    rw [hlen] at this
    unfold U32
    simpa using this
  · unfold U32
    simp

/-- First syscall argument of a `sys_enter_*` context, as extracted. -/
theorem read_u32_arg0 (id a : Nat) (rest : List Nat) :
    read_u32 (sys_enter_ctx id (a :: rest)) 16 = a % U32 := by
  simp [read_u32, bpf_probe_read, sys_enter_ctx, le_bytes, le_value, List.replicate, U32]
  omega

/-- Second syscall argument of a `sys_enter_*` context, as extracted. -/
theorem read_u32_arg1 (id a b : Nat) (rest : List Nat) :
    read_u32 (sys_enter_ctx id (a :: b :: rest)) 24 = b % U32 := by
  simp [read_u32, bpf_probe_read, sys_enter_ctx, le_bytes, le_value, List.replicate, U32]
  omega

/-- Third syscall argument of a `sys_enter_*` context, as extracted. -/
theorem read_u32_arg2 (id a b c : Nat) (rest : List Nat) :
    read_u32 (sys_enter_ctx id (a :: b :: c :: rest)) 32 = c % U32 := by
  simp [read_u32, bpf_probe_read, sys_enter_ctx, le_bytes, le_value, List.replicate, U32]
  omega

/-- Members of what a signal handler emits. -/
theorem mem_emitted_signal (tp tt sig : Nat) (cur : Current)
    (slot : Option signal_event) (st : State) (r : Record)
    (hr : r ∈ emitted st (signal_outcome tp tt sig cur slot st).2) :
    r = Record.sig sizeof_signal_event (signal_record tp tt sig cur)
      ∧ signal_emits sig slot st = true := by
  rw [emitted_signal_outcome] at hr
  by_cases he : signal_emits sig slot st = true
  · rw [if_pos he, List.mem_singleton] at hr
    exact ⟨hr, he⟩
  · rw [if_neg he] at hr
    cases hr

/-- Members of what a lifecycle handler emits. -/
theorem mem_emitted_process (ty : Nat) (cur : Current)
    (slot : Option process_event) (st : State) (r : Record)
    (hr : r ∈ emitted st (process_outcome ty cur slot st).2) :
    r = Record.proc sizeof_process_event (process_record ty cur) := by
  rw [emitted_process_outcome] at hr
  cases slot with
  | none => simp at hr
  | some e => simpa using hr

/-- Ring buffer after a signal handler: the old records, then what it emitted. -/
theorem events_signal_outcome (tp tt sig : Nat) (cur : Current)
    (slot : Option signal_event) (st : State) :
    (signal_outcome tp tt sig cur slot st).2.events
      = st.events ++ (if signal_emits sig slot st then
          [Record.sig sizeof_signal_event (signal_record tp tt sig cur)] else []) := by
  unfold signal_outcome signal_emits
  by_cases h0 : sig = 0
  · simp [h0]
  · by_cases hl : bpf_map_lookup_elem st.signal_filter sig = some 0
    · simp [h0, hl]
    · cases slot <;> simp [h0, hl]

/-- Ring buffer after a lifecycle handler: the old records, then what it emitted. -/
theorem events_process_outcome (ty : Nat) (cur : Current)
    (slot : Option process_event) (st : State) :
    (process_outcome ty cur slot st).2.events
      = st.events ++ (if slot.isSome then
          [Record.proc sizeof_process_event (process_record ty cur)] else []) := by
  unfold process_outcome
  cases slot <;> simp

/-- Timestamps in the ring buffer after a signal handler. -/
theorem stamps_signal_outcome (tp tt sig : Nat) (cur : Current)
    (slot : Option signal_event) (st : State) :
    ∃ l, List.Sublist l [bpf_ktime_get_ns cur]
      ∧ (signal_outcome tp tt sig cur slot st).2.events.map Record.timestamp
          = st.events.map Record.timestamp ++ l := by
  rw [events_signal_outcome]
  by_cases he : signal_emits sig slot st = true
  · exact ⟨[bpf_ktime_get_ns cur], List.Sublist.refl _, by
      simp [he, Record.timestamp, signal_record]⟩
  · exact ⟨[], List.nil_sublist _, by simp [he]⟩

/-- Timestamps in the ring buffer after a lifecycle handler. -/
theorem stamps_process_outcome (ty : Nat) (cur : Current)
    (slot : Option process_event) (st : State) :
    ∃ l, List.Sublist l [bpf_ktime_get_ns cur]
      ∧ (process_outcome ty cur slot st).2.events.map Record.timestamp
          = st.events.map Record.timestamp ++ l := by
  rw [events_process_outcome]
  cases slot with
  | none => exact ⟨[], List.nil_sublist _, by simp⟩
  | some e =>
    exact ⟨[bpf_ktime_get_ns cur], List.Sublist.refl _, by
      simp [Record.timestamp, process_record]⟩

/-- One step appends at most its own clock reading to the timestamps in the
ring buffer. -/
theorem stamps_step (step : Step) (st : State) :
    ∃ l, List.Sublist l step.clock.toList
      ∧ (step.apply st).events.map Record.timestamp
          = st.events.map Record.timestamp ++ l := by
  cases step with
  | kill ctx cur slot =>
    simp only [Step.apply, Step.clock, Option.toList, trace_kill_eq]
    exact stamps_signal_outcome _ _ _ _ _ _
  | tkill ctx cur slot =>
    simp only [Step.apply, Step.clock, Option.toList, trace_tkill_eq]
    exact stamps_signal_outcome _ _ _ _ _ _
  | tgkill ctx cur slot =>
    simp only [Step.apply, Step.clock, Option.toList, trace_tgkill_eq]
    exact stamps_signal_outcome _ _ _ _ _ _
  | fork cur slot =>
    simp only [Step.apply, Step.clock, Option.toList, trace_fork_eq]
    exact stamps_process_outcome _ _ _ _
  | exit cur slot =>
    simp only [Step.apply, Step.clock, Option.toList, trace_exit_eq]
    exact stamps_process_outcome _ _ _ _
  | control key value =>
    exact ⟨[], List.nil_sublist _, by simp [Step.apply]⟩

theorem clock_readings_cons (step : Step) (rest : List Step) :
    clock_readings (step :: rest) = step.clock.toList ++ clock_readings rest := by
  unfold clock_readings
  rw [List.filterMap_cons]
  cases step.clock <;> simp [Option.toList]

/-- Under a non-decreasing clock the timestamps in the ring buffer stay
non-decreasing along a run. -/
theorem run_stamps_sorted (steps : List Step) :
    ∀ st : State,
      List.Pairwise (· ≤ ·) (st.events.map Record.timestamp ++ clock_readings steps) →
      List.Pairwise (· ≤ ·) ((run steps st).events.map Record.timestamp) := by
  induction steps with
  | nil =>
    intro st hs
    simpa [run, clock_readings] using hs
  | cons step rest ih =>
    intro st hs
    obtain ⟨l, hl, hev⟩ := stamps_step step st
    apply ih (step.apply st)
    rw [hev, List.append_assoc]
    rw [clock_readings_cons] at hs
    exact hs.sublist
      ((List.Sublist.refl _).append (hl.append (List.Sublist.refl _)))

/-- The helper hands back a task name unchanged: a 16-byte array that holds a
string of at most 15 nonzero bytes and is zero from its terminator on. -/
theorem comm_of_task_name (cur : Current) (name : List Nat)
    (hl : name.length < TASK_COMM_LEN) (hb : ∀ b ∈ name, 0 < b ∧ b < 256)
    (hc : cur.comm = name ++ List.replicate (TASK_COMM_LEN - name.length) 0) :
    bpf_get_current_comm cur TASK_COMM_LEN = cur.comm := by
  have hmap : name.map (· % 256) = name := by
    conv_rhs => rw [← List.map_id name]
    apply List.map_congr_left
    intro b hb1
    exact Nat.mod_eq_of_lt (hb b hb1).2
  have hpos : ∀ a ∈ name, (a != 0) = true := by
    intro a ha
    have := (hb a ha).1
    simp only [bne_iff_ne, ne_eq]
    omega
  have htake : List.take (TASK_COMM_LEN - 1) name = name :=
    List.take_of_length_le (by omega)
  unfold bpf_get_current_comm
  rw [hc]
  simp only [List.map_append, List.map_replicate, hmap, Nat.zero_mod,
    List.takeWhile_append_of_pos hpos, List.takeWhile_replicate]
  simp [htake]

/-- The helper always fills the whole buffer. -/
theorem comm_length (cur : Current) (size : Nat) :
    (bpf_get_current_comm cur size).length = size := by
  unfold bpf_get_current_comm
  simp only [List.length_append, List.length_replicate, List.length_take]
  omega

/-- The helper always leaves a NUL in the last byte of the buffer. -/
theorem comm_terminated (cur : Current) (size : Nat) :
    (bpf_get_current_comm cur size).getD (size - 1) 0 = 0 := by
  unfold bpf_get_current_comm
  simp only [List.getD_eq_getElem?_getD]
  rw [List.getElem?_append_right (by simp only [List.length_take]; omega)]
  rw [List.getElem?_replicate]
  split_ifs <;> rfl

/-- The four bytes an extraction reads, when the context reaches that far. -/
theorem read_u32_bytes (ctx : List Nat) (off : Nat) (h : off + 4 ≤ ctx.length) :
    read_u32 ctx off
      = ctx.getD off 0 % 256 + 256 * (ctx.getD (off + 1) 0 % 256
        + 256 * (ctx.getD (off + 2) 0 % 256 + 256 * (ctx.getD (off + 3) 0 % 256))) := by
  unfold read_u32 bpf_probe_read
  rw [if_pos h]
  have hd : (ctx.drop off).take 4
      = [ctx.getD off 0, ctx.getD (off + 1) 0, ctx.getD (off + 2) 0,
         ctx.getD (off + 3) 0] := by
    apply List.ext_getElem
    · simp only [List.length_take, List.length_drop, List.length_cons,
        List.length_nil]
      omega
    · intro i h1 h2
      simp only [List.length_cons, List.length_nil] at h2
      have hi : off + i < ctx.length := by omega
      rw [List.getElem_take, List.getElem_drop]
      have : i = 0 ∨ i = 1 ∨ i = 2 ∨ i = 3 := by omega
      rcases this with rfl | rfl | rfl | rfl
      · have hi0 : off < ctx.length := by omega
        simp [List.getD_eq_getElem?_getD, List.getElem?_eq_getElem hi0]
      · simp [List.getD_eq_getElem?_getD, List.getElem?_eq_getElem hi]
      · simp [List.getD_eq_getElem?_getD, List.getElem?_eq_getElem hi]
      · simp [List.getD_eq_getElem?_getD, List.getElem?_eq_getElem hi]
  rw [hd]
  simp [le_value]

theorem length_store (m : List Nat) (off : Nat) (bs : List Nat) :
    (store m off bs).length = m.length := by
  simp [store]

/-- A byte of memory after a store. -/
theorem getD_store (m : List Nat) (off : Nat) (bs : List Nat) (i : Nat) :
    (store m off bs).getD i 0
      = if i < m.length then
          (if off ≤ i ∧ i < off + bs.length then bs.getD (i - off) 0 else m.getD i 0)
        else 0 := by
  unfold store
  by_cases h : i < m.length
  · simp [List.getD_eq_getElem?_getD, List.getElem?_map, List.getElem?_range, h]
  · have hn : (List.range m.length)[i]? = none :=
      List.getElem?_eq_none (by simp only [List.length_range]; omega)
    simp [List.getD_eq_getElem?_getD, List.getElem?_map, h, hn]

theorem length_le_bytes (n v : Nat) : (le_bytes n v).length = n := by
  induction n generalizing v with
  | zero => rfl
  | succ k ih => simp [le_bytes, ih]

/-- Decoding the first `n` little-endian bytes of `v` gives `v` modulo `256^n`. -/
theorem le_value_le_bytes (n v : Nat) : le_value (le_bytes n v) = v % 256 ^ n := by
  induction n generalizing v with
  | zero => simp [le_bytes, le_value, Nat.mod_one]
  | succ k ih =>
    simp only [le_bytes, le_value, ih, pow_succ]
    rw [Nat.mul_comm (256 ^ k) 256, Nat.mod_mul]

theorem length_reserved (size : Nat) (m : List Nat) :
    ((List.range size).map (fun i => m.getD i 0 % 256)).length = size := by
  simp

theorem getD_reserved (size : Nat) (m : List Nat) (i : Nat) (h : i < size) :
    ((List.range size).map (fun i => m.getD i 0 % 256)).getD i 0 = m.getD i 0 % 256 := by
  simp [List.getD_eq_getElem?_getD, List.getElem?_map, List.getElem?_range, h]

/-- A load returns the bytes that the memory holds at its offsets. -/
theorem load_eq (m : List Nat) (off size : Nat) (bs : List Nat) (hl : bs.length = size)
    (h : ∀ j, j < size → m.getD (off + j) 0 = bs.getD j 0) : load m off size = bs := by
  unfold load
  apply List.ext_getElem
  · simp [hl]
  · intro j h1 h2
    simp only [List.length_map, List.length_range] at h1
    simp only [List.getElem_map, List.getElem_range]
    rw [h j h1]
    simp [List.getD_eq_getElem?_getD, List.getElem?_eq_getElem h2]

/-- The padding of a SignalEvent is its bytes 52 to 55. -/
theorem signal_event_padding_iff (i : Nat) :
    signal_event_padding i = true ↔ 52 ≤ i ∧ i < 56 := by
  have hs : sizeof_signal_event = 64 := by decide
  simp only [signal_event_padding, hs, signal_event_members, c_covered, align_up,
    TASK_COMM_LEN, Bool.and_eq_true, Bool.or_eq_true, Bool.not_eq_true',
    decide_eq_true_eq, Bool.or_eq_false_iff, Bool.and_eq_false_imp, Bool.or_false]
  norm_num
  omega

/-- The padding of a ProcessEvent is its bytes 28 to 31 and 41 to 43. -/
theorem process_event_padding_iff (i : Nat) :
    process_event_padding i = true ↔ (28 ≤ i ∧ i < 32) ∨ (41 ≤ i ∧ i < 44) := by
  have hs : sizeof_process_event = 48 := by decide
  simp only [process_event_padding, hs, process_event_members, c_covered, align_up,
    TASK_COMM_LEN, Bool.and_eq_true, Bool.or_eq_true, Bool.not_eq_true',
    decide_eq_true_eq, Bool.or_eq_false_iff, Bool.and_eq_false_imp, Bool.or_false]
  norm_num
  omega

theorem trace_kill_bytes_eq (ctx : List Nat) (cur : Current) (slot : Option (List Nat))
    (st : State) :
    trace_kill_bytes ctx cur slot st
      = signal_outcome_bytes (read_u32 ctx 16) (read_u32 ctx 16) (read_u32 ctx 24)
          cur slot st := by
  unfold trace_kill_bytes signal_outcome_bytes
  by_cases h0 : read_u32 ctx 24 = 0
  · simp [h0]
  · cases hl : bpf_map_lookup_elem st.signal_filter (read_u32 ctx 24) with
    | none =>
      cases slot <;>
        simp [h0, hl, ringbuf_reserve_bytes, signal_event_store, signal_record]
    | some v =>
      cases v with
      | zero => simp [h0, hl]
      | succ n =>
        cases slot <;>
          simp [h0, hl, ringbuf_reserve_bytes, signal_event_store, signal_record]

theorem trace_tkill_bytes_eq (ctx : List Nat) (cur : Current) (slot : Option (List Nat))
    (st : State) :
    trace_tkill_bytes ctx cur slot st
      = signal_outcome_bytes (read_u32 ctx 16) (read_u32 ctx 16) (read_u32 ctx 24)
          cur slot st := by
  unfold trace_tkill_bytes signal_outcome_bytes
  by_cases h0 : read_u32 ctx 24 = 0
  · simp [h0]
  · cases hl : bpf_map_lookup_elem st.signal_filter (read_u32 ctx 24) with
    | none =>
      cases slot <;>
        simp [h0, hl, ringbuf_reserve_bytes, signal_event_store, signal_record]
    | some v =>
      cases v with
      | zero => simp [h0, hl]
      | succ n =>
        cases slot <;>
          simp [h0, hl, ringbuf_reserve_bytes, signal_event_store, signal_record]

theorem trace_tgkill_bytes_eq (ctx : List Nat) (cur : Current) (slot : Option (List Nat))
    (st : State) :
    trace_tgkill_bytes ctx cur slot st
      = signal_outcome_bytes (read_u32 ctx 24) (read_u32 ctx 16) (read_u32 ctx 32)
          cur slot st := by
  unfold trace_tgkill_bytes signal_outcome_bytes
  by_cases h0 : read_u32 ctx 32 = 0
  · simp [h0]
  · cases hl : bpf_map_lookup_elem st.signal_filter (read_u32 ctx 32) with
    | none =>
      cases slot <;>
        simp [h0, hl, ringbuf_reserve_bytes, signal_event_store, signal_record]
    | some v =>
      cases v with
      | zero => simp [h0, hl]
      | succ n =>
        cases slot <;>
          simp [h0, hl, ringbuf_reserve_bytes, signal_event_store, signal_record]

theorem trace_fork_bytes_eq (cur : Current) (slot : Option (List Nat)) :
    trace_fork_bytes cur slot = process_outcome_bytes 0 cur slot := by
  unfold trace_fork_bytes process_outcome_bytes
  cases slot <;> simp [ringbuf_reserve_bytes, process_event_store, process_record]

theorem trace_exit_bytes_eq (cur : Current) (slot : Option (List Nat)) :
    trace_exit_bytes cur slot = process_outcome_bytes 1 cur slot := by
  unfold trace_exit_bytes process_outcome_bytes
  cases slot <;> simp [ringbuf_reserve_bytes, process_event_store, process_record]

theorem length_signal_event_store (e : signal_event) (m : List Nat) :
    (signal_event_store e m).length = m.length := by
  simp only [signal_event_store, length_store]

theorem length_process_event_store (e : process_event) (m : List Nat) :
    (process_event_store e m).length = m.length := by
  simp only [process_event_store, length_store]

/-- A byte of a 64-byte slot after the eight stores of a signal handler. -/
theorem getD_signal_event_store (e : signal_event) (m : List Nat) (i : Nat)
    (hm : m.length = 64) (hs : e.sender_comm.length = 16)
    (ht : e.target_comm.length = 16) :
    (signal_event_store e m).getD i 0
      = if i < 64 then
          (if 36 ≤ i ∧ i < 52 then e.target_comm.getD (i - 36) 0
           else if 20 ≤ i ∧ i < 36 then e.sender_comm.getD (i - 20) 0
           else if 56 ≤ i ∧ i < 64 then (le_bytes 8 e.timestamp).getD (i - 56) 0
           else if 16 ≤ i ∧ i < 20 then (le_bytes 4 e.signal).getD (i - 16) 0
           else if 12 ≤ i ∧ i < 16 then (le_bytes 4 e.target_tgid).getD (i - 12) 0
           else if 8 ≤ i ∧ i < 12 then (le_bytes 4 e.target_pid).getD (i - 8) 0
           else if 4 ≤ i ∧ i < 8 then (le_bytes 4 e.sender_tgid).getD (i - 4) 0
           else if i < 4 then (le_bytes 4 e.sender_pid).getD i 0
           else m.getD i 0)
        else 0 := by
  have o0 : signal_event_offset 0 = 0 := by decide
  have o1 : signal_event_offset 1 = 4 := by decide
  have o2 : signal_event_offset 2 = 8 := by decide
  have o3 : signal_event_offset 3 = 12 := by decide
  have o4 : signal_event_offset 4 = 16 := by decide
  have o5 : signal_event_offset 5 = 20 := by decide
  have o6 : signal_event_offset 6 = 36 := by decide
  have o7 : signal_event_offset 7 = 56 := by decide
  simp only [signal_event_store, getD_store, length_store, hm, o0, o1, o2, o3, o4, o5,
    o6, o7, length_le_bytes, hs, ht]
  by_cases hi : i < 64
  · simp [hi]
  · simp [hi]

/-- A byte of a 48-byte slot after the seven stores of a lifecycle handler. -/
theorem getD_process_event_store (e : process_event) (m : List Nat) (i : Nat)
    (hm : m.length = 48) (hc : e.comm.length = 16) :
    (process_event_store e m).getD i 0
      = if i < 48 then
          (if 12 ≤ i ∧ i < 28 then e.comm.getD (i - 12) 0
           else if 44 ≤ i ∧ i < 48 then (le_bytes 4 e.exit_code).getD (i - 44) 0
           else if 40 ≤ i ∧ i < 41 then (le_bytes 1 e.event_type).getD (i - 40) 0
           else if 32 ≤ i ∧ i < 40 then (le_bytes 8 e.timestamp).getD (i - 32) 0
           else if 8 ≤ i ∧ i < 12 then (le_bytes 4 e.ppid).getD (i - 8) 0
           else if 4 ≤ i ∧ i < 8 then (le_bytes 4 e.tgid).getD (i - 4) 0
           else if i < 4 then (le_bytes 4 e.pid).getD i 0
           else m.getD i 0)
        else 0 := by
  have o0 : process_event_offset 0 = 0 := by decide
  have o1 : process_event_offset 1 = 4 := by decide
  have o2 : process_event_offset 2 = 8 := by decide
  have o3 : process_event_offset 3 = 12 := by decide
  have o4 : process_event_offset 4 = 32 := by decide
  have o5 : process_event_offset 5 = 40 := by decide
  have o6 : process_event_offset 6 = 44 := by decide
  simp only [process_event_store, getD_store, length_store, hm, o0, o1, o2, o3, o4, o5,
    o6, length_le_bytes, hc]
  by_cases hi : i < 48
  · simp [hi]
  · simp [hi]

/-- Decoding the memory of a slot after the eight stores gives back the
members stored. -/
theorem signal_event_load_store (e : signal_event) (m : List Nat)
    (hm : m.length = 64) (hs : e.sender_comm.length = 16)
    (ht : e.target_comm.length = 16)
    (h0 : e.sender_pid < U32) (h1 : e.sender_tgid < U32) (h2 : e.target_pid < U32)
    (h3 : e.target_tgid < U32) (h4 : e.signal < U32) (h7 : e.timestamp < U64) :
    signal_event_load (signal_event_store e m) = e := by
  have o0 : signal_event_offset 0 = 0 := by decide
  have o1 : signal_event_offset 1 = 4 := by decide
  have o2 : signal_event_offset 2 = 8 := by decide
  have o3 : signal_event_offset 3 = 12 := by decide
  have o4 : signal_event_offset 4 = 16 := by decide
  have o5 : signal_event_offset 5 = 20 := by decide
  have o6 : signal_event_offset 6 = 36 := by decide
  have o7 : signal_event_offset 7 = 56 := by decide
  have l0 : load (signal_event_store e m) 0 4 = le_bytes 4 e.sender_pid :=
    load_eq _ _ _ _ (length_le_bytes _ _) (by
      intro j hj
      rw [getD_signal_event_store e m _ hm hs ht]
      simp (disch := omega) only [if_pos, if_neg, Nat.add_sub_cancel_left,
        Nat.zero_add])
  have l1 : load (signal_event_store e m) 4 4 = le_bytes 4 e.sender_tgid :=
    load_eq _ _ _ _ (length_le_bytes _ _) (by
      intro j hj
      rw [getD_signal_event_store e m _ hm hs ht]
      simp (disch := omega) only [if_pos, if_neg, Nat.add_sub_cancel_left,
        Nat.zero_add])
  have l2 : load (signal_event_store e m) 8 4 = le_bytes 4 e.target_pid :=
    load_eq _ _ _ _ (length_le_bytes _ _) (by
      intro j hj
      rw [getD_signal_event_store e m _ hm hs ht]
      simp (disch := omega) only [if_pos, if_neg, Nat.add_sub_cancel_left,
        Nat.zero_add])
  have l3 : load (signal_event_store e m) 12 4 = le_bytes 4 e.target_tgid :=
    load_eq _ _ _ _ (length_le_bytes _ _) (by
      intro j hj
      rw [getD_signal_event_store e m _ hm hs ht]
      simp (disch := omega) only [if_pos, if_neg, Nat.add_sub_cancel_left,
        Nat.zero_add])
  have l4 : load (signal_event_store e m) 16 4 = le_bytes 4 e.signal :=
    load_eq _ _ _ _ (length_le_bytes _ _) (by
      intro j hj
      rw [getD_signal_event_store e m _ hm hs ht]
      simp (disch := omega) only [if_pos, if_neg, Nat.add_sub_cancel_left,
        Nat.zero_add])
  have l5 : load (signal_event_store e m) 20 16 = e.sender_comm :=
    load_eq _ _ _ _ hs (by
      intro j hj
      rw [getD_signal_event_store e m _ hm hs ht]
      simp (disch := omega) only [if_pos, if_neg, Nat.add_sub_cancel_left,
        Nat.zero_add])
  have l6 : load (signal_event_store e m) 36 16 = e.target_comm :=
    load_eq _ _ _ _ ht (by
      intro j hj
      rw [getD_signal_event_store e m _ hm hs ht]
      simp (disch := omega) only [if_pos, if_neg, Nat.add_sub_cancel_left,
        Nat.zero_add])
  have l7 : load (signal_event_store e m) 56 8 = le_bytes 8 e.timestamp :=
    load_eq _ _ _ _ (length_le_bytes _ _) (by
      intro j hj
      rw [getD_signal_event_store e m _ hm hs ht]
      simp (disch := omega) only [if_pos, if_neg, Nat.add_sub_cancel_left,
        Nat.zero_add])
  have v4 : ∀ v : Nat, v < U32 → le_value (le_bytes 4 v) = v := by
    intro v hv
    rw [le_value_le_bytes]
    exact Nat.mod_eq_of_lt (by unfold U32 at hv; omega)
  have v8 : ∀ v : Nat, v < U64 → le_value (le_bytes 8 v) = v := by
    intro v hv
    rw [le_value_le_bytes]
    exact Nat.mod_eq_of_lt (by unfold U64 at hv; omega)
  unfold signal_event_load
  simp only [o0, o1, o2, o3, o4, o5, o6, o7, TASK_COMM_LEN, l0, l1, l2, l3, l4, l5,
    l6, l7, v4 _ h0, v4 _ h1, v4 _ h2, v4 _ h3, v4 _ h4, v8 _ h7]

/-- Decoding the memory of a slot after the seven stores gives back the
members stored. -/
theorem process_event_load_store (e : process_event) (m : List Nat)
    (hm : m.length = 48) (hc : e.comm.length = 16)
    (h0 : e.pid < U32) (h1 : e.tgid < U32) (h2 : e.ppid < U32)
    (h4 : e.timestamp < U64) (h5 : e.event_type < 256) (h6 : e.exit_code < U32) :
    process_event_load (process_event_store e m) = e := by
  have o0 : process_event_offset 0 = 0 := by decide
  have o1 : process_event_offset 1 = 4 := by decide
  have o2 : process_event_offset 2 = 8 := by decide
  have o3 : process_event_offset 3 = 12 := by decide
  have o4 : process_event_offset 4 = 32 := by decide
  have o5 : process_event_offset 5 = 40 := by decide
  have o6 : process_event_offset 6 = 44 := by decide
  have l0 : load (process_event_store e m) 0 4 = le_bytes 4 e.pid :=
    load_eq _ _ _ _ (length_le_bytes _ _) (by
      intro j hj
      rw [getD_process_event_store e m _ hm hc]
      simp (disch := omega) only [if_pos, if_neg, Nat.add_sub_cancel_left,
        Nat.zero_add])
  have l1 : load (process_event_store e m) 4 4 = le_bytes 4 e.tgid :=
    load_eq _ _ _ _ (length_le_bytes _ _) (by
      intro j hj
      rw [getD_process_event_store e m _ hm hc]
      simp (disch := omega) only [if_pos, if_neg, Nat.add_sub_cancel_left,
        Nat.zero_add])
  have l2 : load (process_event_store e m) 8 4 = le_bytes 4 e.ppid :=
    load_eq _ _ _ _ (length_le_bytes _ _) (by
      intro j hj
      rw [getD_process_event_store e m _ hm hc]
      simp (disch := omega) only [if_pos, if_neg, Nat.add_sub_cancel_left,
        Nat.zero_add])
  have l3 : load (process_event_store e m) 12 16 = e.comm :=
    load_eq _ _ _ _ hc (by
      intro j hj
      rw [getD_process_event_store e m _ hm hc]
      simp (disch := omega) only [if_pos, if_neg, Nat.add_sub_cancel_left,
        Nat.zero_add])
  have l4 : load (process_event_store e m) 32 8 = le_bytes 8 e.timestamp :=
    load_eq _ _ _ _ (length_le_bytes _ _) (by
      intro j hj
      rw [getD_process_event_store e m _ hm hc]
      simp (disch := omega) only [if_pos, if_neg, Nat.add_sub_cancel_left,
        Nat.zero_add])
  have l5 : load (process_event_store e m) 40 1 = le_bytes 1 e.event_type :=
    load_eq _ _ _ _ (length_le_bytes _ _) (by
      intro j hj
      rw [getD_process_event_store e m _ hm hc]
      simp (disch := omega) only [if_pos, if_neg, Nat.add_sub_cancel_left,
        Nat.zero_add])
  have l6 : load (process_event_store e m) 44 4 = le_bytes 4 e.exit_code :=
    load_eq _ _ _ _ (length_le_bytes _ _) (by
      intro j hj
      rw [getD_process_event_store e m _ hm hc]
      simp (disch := omega) only [if_pos, if_neg, Nat.add_sub_cancel_left,
        Nat.zero_add])
  have v1 : ∀ v : Nat, v < 256 → le_value (le_bytes 1 v) = v := by
    intro v hv
    rw [le_value_le_bytes]
    exact Nat.mod_eq_of_lt (by omega)
  have v4 : ∀ v : Nat, v < U32 → le_value (le_bytes 4 v) = v := by
    intro v hv
    rw [le_value_le_bytes]
    exact Nat.mod_eq_of_lt (by unfold U32 at hv; omega)
  have v8 : ∀ v : Nat, v < U64 → le_value (le_bytes 8 v) = v := by
    intro v hv
    rw [le_value_le_bytes]
    exact Nat.mod_eq_of_lt (by unfold U64 at hv; omega)
  unfold process_event_load
  simp only [o0, o1, o2, o3, o4, o5, o6, TASK_COMM_LEN, l0, l1, l2, l3, l4, l5, l6,
    v4 _ h0, v4 _ h1, v4 _ h2, v8 _ h4, v1 _ h5, v4 _ h6]

/-- The stores of a signal handler leave the padding of the slot as it was. -/
theorem signal_event_store_padding (e : signal_event) (m : List Nat)
    (hm : m.length = 64) (hs : e.sender_comm.length = 16)
    (ht : e.target_comm.length = 16) (i : Nat) (hi : 52 ≤ i ∧ i < 56) :
    (signal_event_store e m).getD i 0 = m.getD i 0 := by
  rw [getD_signal_event_store e m _ hm hs ht]
  simp (disch := omega) only [if_pos, if_neg]

/-- Outside the padding the memory after the stores of a signal handler does
not depend on what the slot held. -/
theorem signal_event_store_members (e : signal_event) (m0 m1 : List Nat)
    (hm0 : m0.length = 64) (hm1 : m1.length = 64) (hs : e.sender_comm.length = 16)
    (ht : e.target_comm.length = 16) (i : Nat) (hi : ¬ (52 ≤ i ∧ i < 56)) :
    (signal_event_store e m0).getD i 0 = (signal_event_store e m1).getD i 0 := by
  rw [getD_signal_event_store e m0 _ hm0 hs ht, getD_signal_event_store e m1 _ hm1 hs ht]
  by_cases h64 : i < 64
  · rw [if_pos h64, if_pos h64]
    by_cases c6 : 36 ≤ i ∧ i < 52
    · rw [if_pos c6, if_pos c6]
    rw [if_neg c6, if_neg c6]
    by_cases c5 : 20 ≤ i ∧ i < 36
    · rw [if_pos c5, if_pos c5]
    rw [if_neg c5, if_neg c5]
    by_cases c7 : 56 ≤ i ∧ i < 64
    · rw [if_pos c7, if_pos c7]
    rw [if_neg c7, if_neg c7]
    by_cases c4 : 16 ≤ i ∧ i < 20
    · rw [if_pos c4, if_pos c4]
    rw [if_neg c4, if_neg c4]
    by_cases c3 : 12 ≤ i ∧ i < 16
    · rw [if_pos c3, if_pos c3]
    rw [if_neg c3, if_neg c3]
    by_cases c2 : 8 ≤ i ∧ i < 12
    · rw [if_pos c2, if_pos c2]
    rw [if_neg c2, if_neg c2]
    by_cases c1 : 4 ≤ i ∧ i < 8
    · rw [if_pos c1, if_pos c1]
    rw [if_neg c1, if_neg c1]
    by_cases c0 : i < 4
    · rw [if_pos c0, if_pos c0]
    omega
  · rw [if_neg h64, if_neg h64]

/-- The stores of a lifecycle handler leave the padding of the slot as it was. -/
theorem process_event_store_padding (e : process_event) (m : List Nat)
    (hm : m.length = 48) (hc : e.comm.length = 16) (i : Nat)
    (hi : (28 ≤ i ∧ i < 32) ∨ (41 ≤ i ∧ i < 44)) :
    (process_event_store e m).getD i 0 = m.getD i 0 := by
  rw [getD_process_event_store e m _ hm hc]
  simp (disch := omega) only [if_pos, if_neg]

/-- Outside the padding the memory after the stores of a lifecycle handler
does not depend on what the slot held. -/
theorem process_event_store_members (e : process_event) (m0 m1 : List Nat)
    (hm0 : m0.length = 48) (hm1 : m1.length = 48) (hc : e.comm.length = 16) (i : Nat)
    (hi : ¬ ((28 ≤ i ∧ i < 32) ∨ (41 ≤ i ∧ i < 44))) :
    (process_event_store e m0).getD i 0 = (process_event_store e m1).getD i 0 := by
  rw [getD_process_event_store e m0 _ hm0 hc, getD_process_event_store e m1 _ hm1 hc]
  by_cases h48 : i < 48
  · rw [if_pos h48, if_pos h48]
    by_cases c3 : 12 ≤ i ∧ i < 28
    · rw [if_pos c3, if_pos c3]
    rw [if_neg c3, if_neg c3]
    by_cases c6 : 44 ≤ i ∧ i < 48
    · rw [if_pos c6, if_pos c6]
    rw [if_neg c6, if_neg c6]
    by_cases c5 : 40 ≤ i ∧ i < 41
    · rw [if_pos c5, if_pos c5]
    rw [if_neg c5, if_neg c5]
    by_cases c4 : 32 ≤ i ∧ i < 40
    · rw [if_pos c4, if_pos c4]
    rw [if_neg c4, if_neg c4]
    by_cases c2 : 8 ≤ i ∧ i < 12
    · rw [if_pos c2, if_pos c2]
    rw [if_neg c2, if_neg c2]
    by_cases c1 : 4 ≤ i ∧ i < 8
    · rw [if_pos c1, if_pos c1]
    rw [if_neg c1, if_neg c1]
    by_cases c0 : i < 4
    · rw [if_pos c0, if_pos c0]
    omega
  · rw [if_neg h48, if_neg h48]

/-- What a signal handler stores fits its members. -/
theorem signal_record_fits (tp tt sig : Nat) (cur : Current) (htp : tp < U32)
    (htt : tt < U32) (hsig : sig < U32) :
    (signal_record tp tt sig cur).sender_comm.length = 16
    ∧ (signal_record tp tt sig cur).target_comm.length = 16
    ∧ (signal_record tp tt sig cur).sender_pid < U32
    ∧ (signal_record tp tt sig cur).sender_tgid < U32
    ∧ (signal_record tp tt sig cur).target_pid < U32
    ∧ (signal_record tp tt sig cur).target_tgid < U32
    ∧ (signal_record tp tt sig cur).signal < U32
    ∧ (signal_record tp tt sig cur).timestamp < U64 := by
  refine ⟨comm_length cur TASK_COMM_LEN, by simp [signal_record, TASK_COMM_LEN],
    Nat.mod_lt _ (by decide), Nat.mod_lt _ (by decide), htp, htt, hsig,
    Nat.mod_lt _ (by decide)⟩

/-- What a lifecycle handler stores fits its members. -/
theorem process_record_fits (ty : Nat) (cur : Current) (hty : ty < 256) :
    (process_record ty cur).comm.length = 16
    ∧ (process_record ty cur).pid < U32
    ∧ (process_record ty cur).tgid < U32
    ∧ (process_record ty cur).ppid < U32
    ∧ (process_record ty cur).timestamp < U64
    ∧ (process_record ty cur).event_type < 256
    ∧ (process_record ty cur).exit_code < U32 := by
  have h0 : (0 : Nat) < U32 := by decide
  exact ⟨comm_length cur TASK_COMM_LEN, Nat.mod_lt _ (by decide),
    Nat.mod_lt _ (by decide), h0, Nat.mod_lt _ (by decide), hty, h0⟩

/-- Every signal handler on memory is `signal_outcome_bytes` of the arguments
its counterpart on named members extracts. -/
theorem signal_handlers_bytes_eq
    (hb : SignalHandler
      × (List Nat → Current → Option (List Nat) → State → Int × Option (List Nat)))
    (hh : hb ∈ signal_handlers_bytes) :
    ∃ op ot os : Nat,
      (∀ ctx cur slot st, hb.1 ctx cur slot st
        = signal_outcome (read_u32 ctx op) (read_u32 ctx ot) (read_u32 ctx os) cur slot st)
      ∧ (∀ ctx cur slot st, hb.2 ctx cur slot st
        = signal_outcome_bytes (read_u32 ctx op) (read_u32 ctx ot) (read_u32 ctx os)
            cur slot st) := by
  simp only [signal_handlers_bytes, List.mem_cons, List.mem_singleton, List.not_mem_nil,
    or_false] at hh
  rcases hh with rfl | rfl | rfl
  · exact ⟨16, 16, 24, trace_kill_eq, trace_kill_bytes_eq⟩
  · exact ⟨16, 16, 24, trace_tkill_eq, trace_tkill_bytes_eq⟩
  · exact ⟨24, 16, 32, trace_tgkill_eq, trace_tgkill_bytes_eq⟩

/-- Every lifecycle handler on memory is `process_outcome_bytes` of the event
type its counterpart on named members stamps. -/
theorem process_handlers_bytes_eq
    (hb : ProcessHandler × (Current → Option (List Nat) → Int × Option (List Nat)))
    (hh : hb ∈ process_handlers_bytes) :
    ∃ ty : Nat, ty < 256
      ∧ (∀ cur slot st, hb.1 cur slot st = process_outcome ty cur slot st)
      ∧ (∀ cur slot, hb.2 cur slot = process_outcome_bytes ty cur slot) := by
  simp only [process_handlers_bytes, List.mem_cons, List.mem_singleton,
    List.not_mem_nil, or_false] at hh
  rcases hh with rfl | rfl
  · exact ⟨0, by decide, trace_fork_eq, trace_fork_bytes_eq⟩
  · exact ⟨1, by decide, trace_exit_eq, trace_exit_bytes_eq⟩

/-- The bytes a signal handler submits for the record `signal_record ..`, on
two slots with different previous contents. -/
theorem signal_bytes_facts (tp tt sig : Nat) (cur : Current) (htp : tp < U32)
    (htt : tt < U32) (hsig : sig < U32) (m0 m1 b0 b1 : List Nat)
    (hb0 : b0 = signal_event_store (signal_record tp tt sig cur)
      ((List.range sizeof_signal_event).map (fun i => m0.getD i 0 % 256)))
    (hb1 : b1 = signal_event_store (signal_record tp tt sig cur)
      ((List.range sizeof_signal_event).map (fun i => m1.getD i 0 % 256))) :
    b0.length = sizeof_signal_event ∧ b1.length = sizeof_signal_event
    ∧ signal_event_load b0 = signal_record tp tt sig cur
    ∧ signal_event_load b1 = signal_record tp tt sig cur
    ∧ (∀ i, signal_event_padding i = false → b0.getD i 0 = b1.getD i 0)
    ∧ (∀ i, signal_event_padding i = true →
        b0.getD i 0 = m0.getD i 0 % 256 ∧ b1.getD i 0 = m1.getD i 0 % 256) := by
  have hsz : sizeof_signal_event = 64 := by decide
  obtain ⟨hs, ht, f0, f1, f2, f3, f4, f7⟩ := signal_record_fits tp tt sig cur htp htt hsig
  have hl0 : ((List.range sizeof_signal_event).map (fun i => m0.getD i 0 % 256)).length
      = 64 := by rw [length_reserved, hsz]
  have hl1 : ((List.range sizeof_signal_event).map (fun i => m1.getD i 0 % 256)).length
      = 64 := by rw [length_reserved, hsz]
  refine ⟨?_, ?_, ?_, ?_, ?_, ?_⟩
  · rw [hb0, length_signal_event_store, hl0, hsz]
  · rw [hb1, length_signal_event_store, hl1, hsz]
  · rw [hb0]
    exact signal_event_load_store _ _ hl0 hs ht f0 f1 f2 f3 f4 f7
  · rw [hb1]
    exact signal_event_load_store _ _ hl1 hs ht f0 f1 f2 f3 f4 f7
  · intro i hi
    have hn : ¬ (52 ≤ i ∧ i < 56) := by
      intro hc
      rw [(signal_event_padding_iff i).mpr hc] at hi
      cases hi
    rw [hb0, hb1]
    exact signal_event_store_members _ _ _ hl0 hl1 hs ht i hn
  · intro i hi
    have hr := (signal_event_padding_iff i).mp hi
    have hi64 : i < sizeof_signal_event := by rw [hsz]; omega
    rw [hb0, hb1, signal_event_store_padding _ _ hl0 hs ht i hr,
      signal_event_store_padding _ _ hl1 hs ht i hr, getD_reserved _ _ _ hi64,
      getD_reserved _ _ _ hi64]
    exact ⟨rfl, rfl⟩

/-- The bytes a lifecycle handler submits for the record `process_record ..`,
on two slots with different previous contents. -/
theorem process_bytes_facts (ty : Nat) (cur : Current) (hty : ty < 256)
    (m0 m1 b0 b1 : List Nat)
    (hb0 : b0 = process_event_store (process_record ty cur)
      ((List.range sizeof_process_event).map (fun i => m0.getD i 0 % 256)))
    (hb1 : b1 = process_event_store (process_record ty cur)
      ((List.range sizeof_process_event).map (fun i => m1.getD i 0 % 256))) :
    b0.length = sizeof_process_event ∧ b1.length = sizeof_process_event
    ∧ process_event_load b0 = process_record ty cur
    ∧ process_event_load b1 = process_record ty cur
    ∧ (∀ i, process_event_padding i = false → b0.getD i 0 = b1.getD i 0)
    ∧ (∀ i, process_event_padding i = true →
        b0.getD i 0 = m0.getD i 0 % 256 ∧ b1.getD i 0 = m1.getD i 0 % 256) := by
  have hsz : sizeof_process_event = 48 := by decide
  obtain ⟨hc, f0, f1, f2, f4, f5, f6⟩ := process_record_fits ty cur hty
  have hl0 : ((List.range sizeof_process_event).map (fun i => m0.getD i 0 % 256)).length
      = 48 := by rw [length_reserved, hsz]
  have hl1 : ((List.range sizeof_process_event).map (fun i => m1.getD i 0 % 256)).length
      = 48 := by rw [length_reserved, hsz]
  refine ⟨?_, ?_, ?_, ?_, ?_, ?_⟩
  · rw [hb0, length_process_event_store, hl0, hsz]
  · rw [hb1, length_process_event_store, hl1, hsz]
  · rw [hb0]
    exact process_event_load_store _ _ hl0 hc f0 f1 f2 f4 f5 f6
  · rw [hb1]
    exact process_event_load_store _ _ hl1 hc f0 f1 f2 f4 f5 f6
  · intro i hi
    have hn : ¬ ((28 ≤ i ∧ i < 32) ∨ (41 ≤ i ∧ i < 44)) := by
      intro hc2
      rw [(process_event_padding_iff i).mpr hc2] at hi
      cases hi
    rw [hb0, hb1]
    exact process_event_store_members _ _ _ hl0 hl1 hc i hn
  · intro i hi
    have hr := (process_event_padding_iff i).mp hi
    have hi48 : i < sizeof_process_event := by rw [hsz]; omega
    rw [hb0, hb1, process_event_store_padding _ _ hl0 hc i hr,
      process_event_store_padding _ _ hl1 hc i hr, getD_reserved _ _ _ hi48,
      getD_reserved _ _ _ hi48]
    exact ⟨rfl, rfl⟩

/-! ## Claims -/

/-- C1: for each of `trace_kill`, `trace_tkill`, `trace_tgkill`, whatever the
filter table, the caller and the reservation outcome are: when the extracted
signal number is 0 the handler emits nothing; and every record a handler
submits is a SignalEvent whose signal field is not 0. -/
theorem C1_signal_zero_never_emitted (h : Nat × SignalHandler)
    (hh : h ∈ signal_handlers) (ctx : List Nat) (cur : Current)
    (slot : Option signal_event) (st : State) :
    (read_u32 ctx h.1 = 0 → emitted st (h.2 ctx cur slot st).2 = [])
    ∧ (∀ r ∈ emitted st (h.2 ctx cur slot st).2,
        ∃ e, r = Record.sig sizeof_signal_event e ∧ e.signal ≠ 0) := by
  obtain ⟨op, ot, heq⟩ := signal_handlers_eq h hh
  rw [heq, emitted_signal_outcome]
  constructor
  · intro h0
    simp [signal_emits, h0]
  · intro r hr
    by_cases he : signal_emits (read_u32 ctx h.1) slot st = true
    · rw [if_pos he] at hr
      rw [List.mem_singleton] at hr
      exact ⟨_, hr, ((signal_emits_iff _ _ _).mp he).1⟩
    · rw [if_neg he] at hr
      cases hr

/-- C1 at concrete inputs: signal 0 sent through each of the three handlers,
on a table that allows everything it can, with a successful reservation. -/
theorem C1_signal_zero_never_emitted_witness :
    emitted ⟨table_9_suppressed_15_allowed, [], 0⟩
        (trace_kill (sys_enter_ctx 62 [200, 0]) caller_100 (some stale_signal_slot)
          ⟨table_9_suppressed_15_allowed, [], 0⟩).2 = []
    ∧ emitted ⟨table_9_suppressed_15_allowed, [], 0⟩
        (trace_tkill (sys_enter_ctx 200 [200, 0]) caller_100 (some stale_signal_slot)
          ⟨table_9_suppressed_15_allowed, [], 0⟩).2 = []
    ∧ emitted ⟨table_9_suppressed_15_allowed, [], 0⟩
        (trace_tgkill (sys_enter_ctx 234 [200, 201, 0]) caller_100 (some stale_signal_slot)
          ⟨table_9_suppressed_15_allowed, [], 0⟩).2 = [] :=
  ⟨(C1_signal_zero_never_emitted (24, trace_kill) (by simp [signal_handlers])
      (sys_enter_ctx 62 [200, 0]) caller_100 (some stale_signal_slot)
      ⟨table_9_suppressed_15_allowed, [], 0⟩).1 (by decide),
   (C1_signal_zero_never_emitted (24, trace_tkill) (by simp [signal_handlers])
      (sys_enter_ctx 200 [200, 0]) caller_100 (some stale_signal_slot)
      ⟨table_9_suppressed_15_allowed, [], 0⟩).1 (by decide),
   (C1_signal_zero_never_emitted (32, trace_tgkill) (by simp [signal_handlers])
      (sys_enter_ctx 234 [200, 201, 0]) caller_100 (some stale_signal_slot)
      ⟨table_9_suppressed_15_allowed, [], 0⟩).1 (by decide)⟩

/-- C2: for each of the three signal handlers and whatever the target, the
caller and the reservation outcome are: when the filter table lookup of the
extracted signal finds an entry whose value is 0, the handler emits nothing. -/
theorem C2_explicit_suppress_never_emitted (h : Nat × SignalHandler)
    (hh : h ∈ signal_handlers) (ctx : List Nat) (cur : Current)
    (slot : Option signal_event) (st : State)
    (hsup : bpf_map_lookup_elem st.signal_filter (read_u32 ctx h.1) = some 0) :
    emitted st (h.2 ctx cur slot st).2 = [] := by
  obtain ⟨op, ot, heq⟩ := signal_handlers_eq h hh
  rw [heq, emitted_signal_outcome]
  simp [signal_emits, hsup]

/-- C2 at the table `{9: 0}`: sending signal 9 through each of the three
handlers, with a successful reservation, yields zero emitted records. -/
theorem C2_explicit_suppress_never_emitted_witness :
    emitted ⟨table_9_suppressed, [], 0⟩
        (trace_kill (sys_enter_ctx 62 [200, 9]) caller_100 (some stale_signal_slot)
          ⟨table_9_suppressed, [], 0⟩).2 = []
    ∧ emitted ⟨table_9_suppressed, [], 0⟩
        (trace_tkill (sys_enter_ctx 200 [200, 9]) caller_100 (some stale_signal_slot)
          ⟨table_9_suppressed, [], 0⟩).2 = []
    ∧ emitted ⟨table_9_suppressed, [], 0⟩
        (trace_tgkill (sys_enter_ctx 234 [200, 201, 9]) caller_100 (some stale_signal_slot)
          ⟨table_9_suppressed, [], 0⟩).2 = [] :=
  ⟨C2_explicit_suppress_never_emitted (24, trace_kill) (by simp [signal_handlers])
      (sys_enter_ctx 62 [200, 9]) caller_100 (some stale_signal_slot)
      ⟨table_9_suppressed, [], 0⟩ (by decide),
   C2_explicit_suppress_never_emitted (24, trace_tkill) (by simp [signal_handlers])
      (sys_enter_ctx 200 [200, 9]) caller_100 (some stale_signal_slot)
      ⟨table_9_suppressed, [], 0⟩ (by decide),
   C2_explicit_suppress_never_emitted (32, trace_tgkill) (by simp [signal_handlers])
      (sys_enter_ctx 234 [200, 201, 9]) caller_100 (some stale_signal_slot)
      ⟨table_9_suppressed, [], 0⟩ (by decide)⟩

/-- C3 (as amended): for each of the three signal handlers and every nonzero
extracted signal `s`: when the filter table lookup of `s` finds no entry or
finds a nonzero value, and the reservation succeeds, the handler submits
exactly one SignalEvent, whose signal field is `s`; and a record is emitted
if and only if `s` is not 0, the lookup is not a present 0, and the
reservation succeeds. -/
theorem C3_allowed_signal_emits_one (h : Nat × SignalHandler)
    (hh : h ∈ signal_handlers) (ctx : List Nat) (cur : Current)
    (slot : Option signal_event) (st : State) :
    (read_u32 ctx h.1 ≠ 0 →
      (bpf_map_lookup_elem st.signal_filter (read_u32 ctx h.1) = none
        ∨ ∃ v, bpf_map_lookup_elem st.signal_filter (read_u32 ctx h.1) = some v ∧ v ≠ 0) →
      slot ≠ none →
      ∃ e, emitted st (h.2 ctx cur slot st).2 = [Record.sig sizeof_signal_event e]
        ∧ e.signal = read_u32 ctx h.1)
    ∧ (emitted st (h.2 ctx cur slot st).2 ≠ []
        ↔ read_u32 ctx h.1 ≠ 0
          ∧ bpf_map_lookup_elem st.signal_filter (read_u32 ctx h.1) ≠ some 0
          ∧ slot ≠ none) := by
  obtain ⟨op, ot, heq⟩ := signal_handlers_eq h hh
  rw [heq, emitted_signal_outcome]
  constructor
  · intro h0 hl hs
    have hne : bpf_map_lookup_elem st.signal_filter (read_u32 ctx h.1) ≠ some 0 := by
      rcases hl with hl | ⟨v, hl, hv⟩
      · rw [hl]; simp
      · rw [hl]; simpa using hv
    have he : signal_emits (read_u32 ctx h.1) slot st = true :=
      (signal_emits_iff _ _ _).mpr ⟨h0, hne, hs⟩
    rw [if_pos he]
    exact ⟨_, rfl, rfl⟩
  · rw [← signal_emits_iff]
    by_cases he : signal_emits (read_u32 ctx h.1) slot st = true
    · simp [he]
    · simp [he]

/-- C3 (as amended) at the table `{9: 0, 15: 1}`: sending signal 15 through
each of the three handlers, with a successful reservation, yields exactly one
record, with signal 15. -/
theorem C3_allowed_signal_emits_one_witness :
    (∃ e, emitted ⟨table_9_suppressed_15_allowed, [], 0⟩
            (trace_kill (sys_enter_ctx 62 [200, 15]) caller_100 (some stale_signal_slot)
              ⟨table_9_suppressed_15_allowed, [], 0⟩).2
          = [Record.sig sizeof_signal_event e]
        ∧ e.signal = read_u32 (sys_enter_ctx 62 [200, 15]) 24)
    ∧ (∃ e, emitted ⟨table_9_suppressed_15_allowed, [], 0⟩
            (trace_tkill (sys_enter_ctx 200 [200, 15]) caller_100 (some stale_signal_slot)
              ⟨table_9_suppressed_15_allowed, [], 0⟩).2
          = [Record.sig sizeof_signal_event e]
        ∧ e.signal = read_u32 (sys_enter_ctx 200 [200, 15]) 24)
    ∧ (∃ e, emitted ⟨table_9_suppressed_15_allowed, [], 0⟩
            (trace_tgkill (sys_enter_ctx 234 [200, 201, 15]) caller_100
              (some stale_signal_slot) ⟨table_9_suppressed_15_allowed, [], 0⟩).2
          = [Record.sig sizeof_signal_event e]
        ∧ e.signal = read_u32 (sys_enter_ctx 234 [200, 201, 15]) 32) :=
  ⟨(C3_allowed_signal_emits_one (24, trace_kill) (by simp [signal_handlers])
      (sys_enter_ctx 62 [200, 15]) caller_100 (some stale_signal_slot)
      ⟨table_9_suppressed_15_allowed, [], 0⟩).1
      (by decide) (Or.inr ⟨1, by decide, by decide⟩) (by simp),
   (C3_allowed_signal_emits_one (24, trace_tkill) (by simp [signal_handlers])
      (sys_enter_ctx 200 [200, 15]) caller_100 (some stale_signal_slot)
      ⟨table_9_suppressed_15_allowed, [], 0⟩).1
      (by decide) (Or.inr ⟨1, by decide, by decide⟩) (by simp),
   (C3_allowed_signal_emits_one (32, trace_tgkill) (by simp [signal_handlers])
      (sys_enter_ctx 234 [200, 201, 15]) caller_100 (some stale_signal_slot)
      ⟨table_9_suppressed_15_allowed, [], 0⟩).1
      (by decide) (Or.inr ⟨1, by decide, by decide⟩) (by simp)⟩

/-- C3 as stated fails: on the table in which the control plane stored
`{9: 0}` and nothing else, signal 15 finds slot 15 of the array, which still
holds 0, and with a successful reservation each of the three handlers emits
no record (and never attempts the reservation). -/
theorem C3_table_9_signal_15_counterexample :
    bpf_map_lookup_elem table_9_suppressed 15 = some 0
    ∧ trace_kill (sys_enter_ctx 62 [200, 15]) caller_100 (some stale_signal_slot)
        ⟨table_9_suppressed, [], 0⟩ = (0, ⟨table_9_suppressed, [], 0⟩)
    ∧ trace_tkill (sys_enter_ctx 200 [200, 15]) caller_100 (some stale_signal_slot)
        ⟨table_9_suppressed, [], 0⟩ = (0, ⟨table_9_suppressed, [], 0⟩)
    ∧ trace_tgkill (sys_enter_ctx 234 [200, 201, 15]) caller_100 (some stale_signal_slot)
        ⟨table_9_suppressed, [], 0⟩ = (0, ⟨table_9_suppressed, [], 0⟩)
    ∧ (emitted ⟨table_9_suppressed, [], 0⟩
        (trace_kill (sys_enter_ctx 62 [200, 15]) caller_100 (some stale_signal_slot)
          ⟨table_9_suppressed, [], 0⟩).2).length ≠ 1 := by
  decide

/-- C4 (as amended): the filter table is a 64-slot array whose slots all
exist and hold 0 until the control plane writes them. On the table as
created, every signal in 1..63 finds a slot holding 0 and each of the three
handlers emits nothing for it. Once slot 15 holds a nonzero value,
`trace_kill` invoked by a caller with pid 100 for target pid 200 and signal
15, with a successful reservation, emits exactly one SignalEvent, with
sender_pid = 100, target_pid = 200 and signal = 15. -/
theorem C4_created_table_suppresses (ctx : List Nat) (cur : Current)
    (e0 : signal_event) (st : State) (tgid : Nat) (htg : tgid < U32)
    (hcaller : cur.pid_tgid = tgid * U32 + 100)
    (htarget : read_u32 ctx 16 = 200) (hsig : read_u32 ctx 24 = 15)
    (hallow : ∃ v, bpf_map_lookup_elem st.signal_filter 15 = some v ∧ v ≠ 0) :
    (∃ e, emitted st (trace_kill ctx cur (some e0) st).2
            = [Record.sig sizeof_signal_event e]
          ∧ e.sender_pid = 100 ∧ e.target_pid = 200 ∧ e.signal = 15)
    ∧ (∀ sig, 1 ≤ sig → sig ≤ 63 →
        bpf_map_lookup_elem signal_filter_created sig = some 0)
    ∧ (∀ h ∈ signal_handlers, ∀ (c : List Nat) (k : Current)
        (slot : Option signal_event) (evs : List Record) (n : Nat),
        read_u32 c h.1 ≤ 63 →
        emitted ⟨signal_filter_created, evs, n⟩
          (h.2 c k slot ⟨signal_filter_created, evs, n⟩).2 = []) := by
  refine ⟨?_, ?_, ?_⟩
  · obtain ⟨v, hl, hv⟩ := hallow
    have hne : bpf_map_lookup_elem st.signal_filter 15 ≠ some 0 := by
      rw [hl]; simpa using hv
    have he : signal_emits 15 (some e0) st = true :=
      (signal_emits_iff _ _ _).mpr ⟨by decide, hne, by simp⟩
    rw [trace_kill_eq, emitted_signal_outcome, htarget, hsig, if_pos he]
    refine ⟨_, rfl, ?_, rfl, rfl⟩
    exact (identity_halves cur 100 tgid (by unfold U32; norm_num) htg hcaller).1
  · intro sig _ h63
    exact lookup_created sig (by unfold MAX_SIGNAL; omega)
  · intro h hh c k slot evs n h63
    obtain ⟨op, ot, heq⟩ := signal_handlers_eq h hh
    rw [heq, emitted_signal_outcome]
    by_cases h0 : read_u32 c h.1 = 0
    · simp [signal_emits, h0]
    · have hl : bpf_map_lookup_elem signal_filter_created (read_u32 c h.1) = some 0 :=
        lookup_created _ (by unfold MAX_SIGNAL; omega)
      simp [signal_emits, hl]

/-- C4 (as amended) at concrete inputs: caller pid 100 (thread group 100),
target 200, signal 15, the table `{9: 0, 15: 1}`, a successful reservation. -/
theorem C4_created_table_suppresses_witness :
    ∃ e, emitted ⟨table_9_suppressed_15_allowed, [], 0⟩
            (trace_kill (sys_enter_ctx 62 [200, 15]) caller_100 (some stale_signal_slot)
              ⟨table_9_suppressed_15_allowed, [], 0⟩).2
          = [Record.sig sizeof_signal_event e]
        ∧ e.sender_pid = 100 ∧ e.target_pid = 200 ∧ e.signal = 15 :=
  (C4_created_table_suppresses (sys_enter_ctx 62 [200, 15]) caller_100
    stale_signal_slot ⟨table_9_suppressed_15_allowed, [], 0⟩ 100 (by decide)
    (by decide) (by decide) (by decide) ⟨1, by decide, by decide⟩).1

/-- C4 as stated fails: on the table as the program declares it, with no entry
written by the control plane, `trace_kill` invoked by pid 100 for target pid
200 and signal 15 with a successful reservation finds slot 15 holding 0 and
emits nothing. -/
theorem C4_unpopulated_table_counterexample :
    bpf_map_lookup_elem State.loaded.signal_filter 15 = some 0
    ∧ trace_kill (sys_enter_ctx 62 [200, 15]) caller_100 (some stale_signal_slot)
        State.loaded = (0, State.loaded)
    ∧ emitted State.loaded
        (trace_kill (sys_enter_ctx 62 [200, 15]) caller_100 (some stale_signal_slot)
          State.loaded).2 = [] := by
  decide

/-- C5: every SignalEvent emitted by `trace_kill` or `trace_tkill` has
target_pid = target_tgid = the first extracted argument. Every SignalEvent
emitted by `trace_tgkill` has target_tgid = the first extracted argument and
target_pid = the second one; the two are independent: every pair of 32-bit
values is recorded as sent, and for some input target_pid differs from
target_tgid. -/
theorem C5_target_fields (ctx : List Nat) (cur : Current)
    (slot : Option signal_event) (st : State) :
    (∀ r ∈ emitted st (trace_kill ctx cur slot st).2
            ++ emitted st (trace_tkill ctx cur slot st).2,
        ∃ e, r = Record.sig sizeof_signal_event e
          ∧ e.target_pid = read_u32 ctx 16 ∧ e.target_tgid = read_u32 ctx 16
          ∧ e.target_pid = e.target_tgid)
    ∧ (∀ r ∈ emitted st (trace_tgkill ctx cur slot st).2,
        ∃ e, r = Record.sig sizeof_signal_event e
          ∧ e.target_tgid = read_u32 ctx 16 ∧ e.target_pid = read_u32 ctx 24)
    ∧ (∀ a b : Nat, ∃ e,
        emitted ⟨table_9_suppressed_15_allowed, [], 0⟩
            (trace_tgkill (sys_enter_ctx 234 [a, b, 15]) cur (some stale_signal_slot)
              ⟨table_9_suppressed_15_allowed, [], 0⟩).2
          = [Record.sig sizeof_signal_event e]
        ∧ e.target_tgid = a % U32 ∧ e.target_pid = b % U32)
    ∧ (∃ e,
        emitted ⟨table_9_suppressed_15_allowed, [], 0⟩
            (trace_tgkill (sys_enter_ctx 234 [200, 201, 15]) cur (some stale_signal_slot)
              ⟨table_9_suppressed_15_allowed, [], 0⟩).2
          = [Record.sig sizeof_signal_event e]
        ∧ e.target_pid ≠ e.target_tgid) := by
  have hsig : ∀ a b : Nat,
      signal_emits (read_u32 (sys_enter_ctx 234 [a, b, 15]) 32) (some stale_signal_slot)
        ⟨table_9_suppressed_15_allowed, [], 0⟩ = true := by
    intro a b
    rw [read_u32_arg2]
    decide
  refine ⟨?_, ?_, ?_, ?_⟩
  · intro r hr
    rw [List.mem_append, trace_kill_eq, trace_tkill_eq, or_self] at hr
    exact ⟨_, (mem_emitted_signal _ _ _ _ _ _ _ hr).1, rfl, rfl, rfl⟩
  · intro r hr
    rw [trace_tgkill_eq] at hr
    exact ⟨_, (mem_emitted_signal _ _ _ _ _ _ _ hr).1, rfl, rfl⟩
  · intro a b
    rw [trace_tgkill_eq, emitted_signal_outcome, if_pos (hsig a b)]
    exact ⟨_, rfl, read_u32_arg0 234 a [b, 15], read_u32_arg1 234 a b [15]⟩
  · rw [trace_tgkill_eq, emitted_signal_outcome, if_pos (hsig 200 201)]
    refine ⟨_, rfl, ?_⟩
    show read_u32 (sys_enter_ctx 234 [200, 201, 15]) 24
      ≠ read_u32 (sys_enter_ctx 234 [200, 201, 15]) 16
    decide

/-- C6: when the reservation fails, each of the five handlers returns 0,
submits no record and leaves the ring buffer contents and the filter table as
they were. On the signal-0 and the explicit-suppress path a signal handler
returns 0 with the whole state untouched, the count of reservation attempts
included: no reservation is attempted. -/
theorem C6_discard_paths (ctx : List Nat) (cur : Current) (st : State) :
    (∀ h ∈ signal_handlers,
        (h.2 ctx cur none st).1 = 0
        ∧ (h.2 ctx cur none st).2.events = st.events
        ∧ (h.2 ctx cur none st).2.signal_filter = st.signal_filter
        ∧ emitted st (h.2 ctx cur none st).2 = [])
    ∧ (∀ h ∈ process_handlers,
        (h.2 cur none st).1 = 0
        ∧ (h.2 cur none st).2.events = st.events
        ∧ (h.2 cur none st).2.signal_filter = st.signal_filter
        ∧ emitted st (h.2 cur none st).2 = [])
    ∧ (∀ h ∈ signal_handlers, ∀ slot : Option signal_event,
        (read_u32 ctx h.1 = 0
          ∨ bpf_map_lookup_elem st.signal_filter (read_u32 ctx h.1) = some 0) →
        h.2 ctx cur slot st = (0, st)
        ∧ (h.2 ctx cur slot st).2.reserve_calls = st.reserve_calls) := by
  refine ⟨?_, ?_, ?_⟩
  · intro h hh
    obtain ⟨op, ot, heq⟩ := signal_handlers_eq h hh
    rw [heq]
    unfold signal_outcome
    split_ifs <;> simp_all [emitted]
  · intro h hh
    rw [process_handlers_eq h hh]
    unfold process_outcome
    simp [emitted]
  · intro h hh slot hd
    obtain ⟨op, ot, heq⟩ := signal_handlers_eq h hh
    rw [heq]
    unfold signal_outcome
    rw [if_pos hd]
    exact ⟨rfl, rfl⟩

/-- C6 at concrete inputs: signal 0, and signal 9 on the table `{9: 0}`, sent
through `trace_kill` with a reservation that would succeed. -/
theorem C6_discard_paths_witness :
    (trace_kill (sys_enter_ctx 62 [200, 0]) caller_100 (some stale_signal_slot)
        ⟨table_9_suppressed_15_allowed, [], 7⟩
      = (0, ⟨table_9_suppressed_15_allowed, [], 7⟩))
    ∧ (trace_kill (sys_enter_ctx 62 [200, 9]) caller_100 (some stale_signal_slot)
        ⟨table_9_suppressed_15_allowed, [], 7⟩
      = (0, ⟨table_9_suppressed_15_allowed, [], 7⟩))
    ∧ (trace_fork caller_100 none ⟨table_9_suppressed_15_allowed, [], 7⟩).1 = 0 :=
  ⟨((C6_discard_paths (sys_enter_ctx 62 [200, 0]) caller_100
        ⟨table_9_suppressed_15_allowed, [], 7⟩).2.2
      (24, trace_kill) (by simp [signal_handlers]) (some stale_signal_slot)
      (Or.inl (by decide))).1,
   ((C6_discard_paths (sys_enter_ctx 62 [200, 9]) caller_100
        ⟨table_9_suppressed_15_allowed, [], 7⟩).2.2
      (24, trace_kill) (by simp [signal_handlers]) (some stale_signal_slot)
      (Or.inr (by decide))).1,
   ((C6_discard_paths (sys_enter_ctx 62 [200, 9]) caller_100
        ⟨table_9_suppressed_15_allowed, [], 7⟩).2.1
      (0, trace_fork) (by simp [process_handlers])).1⟩

/-- C7: for every caller identity (pid, tgid), when the reservation succeeds
`trace_fork` emits exactly one ProcessEvent, with event_type = 0, and
`trace_exit` exactly one, with event_type = 1; in both, pid and tgid are the
current thread's, ppid = 0 and exit_code = 0. Every ProcessEvent either
handler emits, whatever the reservation outcome, has event_type 0 or 1. -/
theorem C7_lifecycle_records (cur : Current) (e0 : process_event) (st : State)
    (pid tgid : Nat) (hp : pid < U32) (ht : tgid < U32)
    (hc : cur.pid_tgid = tgid * U32 + pid) :
    (∃ e, emitted st (trace_fork cur (some e0) st).2
            = [Record.proc sizeof_process_event e]
          ∧ e.event_type = 0 ∧ e.pid = pid ∧ e.tgid = tgid
          ∧ e.ppid = 0 ∧ e.exit_code = 0)
    ∧ (∃ e, emitted st (trace_exit cur (some e0) st).2
            = [Record.proc sizeof_process_event e]
          ∧ e.event_type = 1 ∧ e.pid = pid ∧ e.tgid = tgid
          ∧ e.ppid = 0 ∧ e.exit_code = 0)
    ∧ (∀ h ∈ process_handlers, ∀ slot : Option process_event,
        ∀ r ∈ emitted st (h.2 cur slot st).2,
          ∃ e, r = Record.proc sizeof_process_event e
            ∧ (e.event_type = 0 ∨ e.event_type = 1)) := by
  have hid := identity_halves cur pid tgid hp ht hc
  refine ⟨?_, ?_, ?_⟩
  · rw [trace_fork_eq, emitted_process_outcome]
    exact ⟨_, rfl, rfl, hid.1, hid.2, rfl, rfl⟩
  · rw [trace_exit_eq, emitted_process_outcome]
    exact ⟨_, rfl, rfl, hid.1, hid.2, rfl, rfl⟩
  · intro h hh slot r hr
    rw [process_handlers_eq h hh] at hr
    refine ⟨_, mem_emitted_process _ _ _ _ _ hr, ?_⟩
    simp only [process_handlers, List.mem_cons, List.mem_singleton, List.not_mem_nil,
      or_false] at hh
    rcases hh with rfl | rfl
    · exact Or.inl rfl
    · exact Or.inr rfl

/-- C7 at concrete inputs: a fork observed on a thread with pid = 50 and
tgid = 50 yields one ProcessEvent with event_type = 0 (Fork), pid = 50,
tgid = 50, ppid = 0. -/
theorem C7_lifecycle_records_witness :
    ∃ e, emitted State.loaded
            (trace_fork ⟨50 * U32 + 50, [115, 104], 12345⟩ (some stale_process_slot)
              State.loaded).2
          = [Record.proc sizeof_process_event e]
        ∧ e.event_type = 0 ∧ e.pid = 50 ∧ e.tgid = 50 ∧ e.ppid = 0 ∧ e.exit_code = 0 :=
  (C7_lifecycle_records ⟨50 * U32 + 50, [115, 104], 12345⟩ stale_process_slot
    State.loaded 50 50 (by decide) (by decide) rfl).1

/-- C8 (as amended): every SignalEvent emitted by one of the three signal
handlers has a signal field equal to the extracted 32-bit argument, which is
in the range 1..2^32-1; the handlers enforce no upper bound of 63. -/
theorem C8_signal_field_range (h : Nat × SignalHandler) (hh : h ∈ signal_handlers)
    (ctx : List Nat) (cur : Current) (slot : Option signal_event) (st : State)
    (r : Record) (hr : r ∈ emitted st (h.2 ctx cur slot st).2) :
    ∃ e, r = Record.sig sizeof_signal_event e
      ∧ e.signal = read_u32 ctx h.1 ∧ 1 ≤ e.signal ∧ e.signal < U32 := by
  obtain ⟨op, ot, heq⟩ := signal_handlers_eq h hh
  rw [heq] at hr
  obtain ⟨hrec, he⟩ := mem_emitted_signal _ _ _ _ _ _ _ hr
  have h0 : read_u32 ctx h.1 ≠ 0 := ((signal_emits_iff _ _ _).mp he).1
  exact ⟨_, hrec, rfl, Nat.one_le_iff_ne_zero.mpr h0, read_u32_lt ctx h.1⟩

/-- C8 (as amended) at concrete inputs: signal 15 sent through `trace_kill` on
the table `{9: 0, 15: 1}`. -/
theorem C8_signal_field_range_witness :
    ∃ e, Record.sig sizeof_signal_event (signal_record 200 200 15 caller_100)
          = Record.sig sizeof_signal_event e
      ∧ e.signal = read_u32 (sys_enter_ctx 62 [200, 15]) 24
      ∧ 1 ≤ e.signal ∧ e.signal < U32 :=
  C8_signal_field_range (24, trace_kill) (by simp [signal_handlers])
    (sys_enter_ctx 62 [200, 15]) caller_100 (some stale_signal_slot)
    ⟨table_9_suppressed_15_allowed, [], 0⟩
    (Record.sig sizeof_signal_event (signal_record 200 200 15 caller_100)) (by decide)

/-- C8 as stated fails: `trace_kill` called with signal argument 64 and a
successful reservation emits a SignalEvent whose signal field is 64, outside
1..63 (the key 64 is outside the table, so the lookup finds nothing). -/
theorem C8_signal_64_counterexample :
    ∃ e, emitted State.loaded
            (trace_kill (sys_enter_ctx 62 [200, 64]) caller_100 (some stale_signal_slot)
              State.loaded).2
          = [Record.sig sizeof_signal_event e]
        ∧ e.signal = 64 ∧ ¬ (1 ≤ e.signal ∧ e.signal ≤ 63) :=
  ⟨signal_record 200 200 64 caller_100, by decide, by decide, by decide⟩

/-- C9: for every extracted signal value `s` with `s ≥ 64`, whatever the
filter table contains, the lookup finds no entry, and with a successful
reservation each of the three handlers emits exactly one SignalEvent, with
signal = `s`. -/
theorem C9_out_of_range_allowed (h : Nat × SignalHandler) (hh : h ∈ signal_handlers)
    (ctx : List Nat) (cur : Current) (e0 : signal_event) (st : State)
    (hs : 64 ≤ read_u32 ctx h.1) :
    bpf_map_lookup_elem st.signal_filter (read_u32 ctx h.1) = none
    ∧ ∃ e, emitted st (h.2 ctx cur (some e0) st).2
            = [Record.sig sizeof_signal_event e]
          ∧ e.signal = read_u32 ctx h.1 := by
  have hl : bpf_map_lookup_elem st.signal_filter (read_u32 ctx h.1) = none :=
    lookup_out_of_range _ _ hs
  refine ⟨hl, ?_⟩
  obtain ⟨op, ot, heq⟩ := signal_handlers_eq h hh
  have he : signal_emits (read_u32 ctx h.1) (some e0) st = true :=
    (signal_emits_iff _ _ _).mpr ⟨by omega, by rw [hl]; simp, by simp⟩
  rw [heq, emitted_signal_outcome, if_pos he]
  exact ⟨_, rfl, rfl⟩

/-- C9 at concrete inputs: signal 64 through `trace_kill` and signal
2^32 - 1 through `trace_tgkill`, on the table as created (every slot 0). -/
theorem C9_out_of_range_allowed_witness :
    (bpf_map_lookup_elem State.loaded.signal_filter
        (read_u32 (sys_enter_ctx 62 [200, 64]) 24) = none
      ∧ ∃ e, emitted State.loaded
              (trace_kill (sys_enter_ctx 62 [200, 64]) caller_100
                (some stale_signal_slot) State.loaded).2
            = [Record.sig sizeof_signal_event e]
          ∧ e.signal = read_u32 (sys_enter_ctx 62 [200, 64]) 24)
    ∧ (bpf_map_lookup_elem State.loaded.signal_filter
        (read_u32 (sys_enter_ctx 234 [200, 201, 4294967295]) 32) = none
      ∧ ∃ e, emitted State.loaded
              (trace_tgkill (sys_enter_ctx 234 [200, 201, 4294967295]) caller_100
                (some stale_signal_slot) State.loaded).2
            = [Record.sig sizeof_signal_event e]
          ∧ e.signal = read_u32 (sys_enter_ctx 234 [200, 201, 4294967295]) 32) :=
  ⟨C9_out_of_range_allowed (24, trace_kill) (by simp [signal_handlers])
      (sys_enter_ctx 62 [200, 64]) caller_100 stale_signal_slot State.loaded (by decide),
   C9_out_of_range_allowed (32, trace_tgkill) (by simp [signal_handlers])
      (sys_enter_ctx 234 [200, 201, 4294967295]) caller_100 stale_signal_slot
      State.loaded (by decide)⟩

/-- C10: every record a handler emits carries as timestamp the clock reading
of that invocation; and for every sequential run of steps (handler
invocations, control-plane writes between them) under a non-decreasing
clock, the timestamps of the records in the ring buffer, in submission order,
are non-decreasing. -/
theorem C10_timestamps_follow_clock (steps : List Step) (st : State)
    (hclock : List.Pairwise (· ≤ ·)
      (st.events.map Record.timestamp ++ clock_readings steps)) :
    (∀ h ∈ signal_handlers, ∀ (ctx : List Nat) (cur : Current)
        (slot : Option signal_event) (s : State),
        ∀ r ∈ emitted s (h.2 ctx cur slot s).2, r.timestamp = bpf_ktime_get_ns cur)
    ∧ (∀ h ∈ process_handlers, ∀ (cur : Current) (slot : Option process_event)
        (s : State),
        ∀ r ∈ emitted s (h.2 cur slot s).2, r.timestamp = bpf_ktime_get_ns cur)
    ∧ List.Pairwise (· ≤ ·) ((run steps st).events.map Record.timestamp) := by
  refine ⟨?_, ?_, run_stamps_sorted steps st hclock⟩
  · intro h hh ctx cur slot s r hr
    obtain ⟨op, ot, heq⟩ := signal_handlers_eq h hh
    rw [heq] at hr
    rw [(mem_emitted_signal _ _ _ _ _ _ _ hr).1]
    rfl
  · intro h hh cur slot s r hr
    rw [process_handlers_eq h hh] at hr
    rw [mem_emitted_process _ _ _ _ _ hr]
    rfl

/-- C10 at a concrete run from a freshly loaded program: a fork at time 10,
the control plane allowing signal 15, a kill at time 20, a kill at time 20
whose reservation fails, a tgkill at time 25 and an exit at time 30 leave four
records with timestamps 10, 20, 25, 30. -/
theorem C10_timestamps_follow_clock_witness :
    (run [Step.fork ⟨50 * U32 + 50, [115, 104], 10⟩ (some stale_process_slot),
          Step.control 15 1,
          Step.kill (sys_enter_ctx 62 [200, 15]) ⟨50 * U32 + 50, [115, 104], 20⟩
            (some stale_signal_slot),
          Step.kill (sys_enter_ctx 62 [200, 15]) ⟨50 * U32 + 50, [115, 104], 20⟩ none,
          Step.tgkill (sys_enter_ctx 234 [200, 201, 15]) ⟨50 * U32 + 50, [115, 104], 25⟩
            (some stale_signal_slot),
          Step.exit ⟨50 * U32 + 50, [115, 104], 30⟩ (some stale_process_slot)]
        State.loaded).events.map Record.timestamp = [10, 20, 25, 30]
    ∧ List.Pairwise (· ≤ ·)
        ((run [Step.fork ⟨50 * U32 + 50, [115, 104], 10⟩ (some stale_process_slot),
          Step.control 15 1,
          Step.kill (sys_enter_ctx 62 [200, 15]) ⟨50 * U32 + 50, [115, 104], 20⟩
            (some stale_signal_slot),
          Step.kill (sys_enter_ctx 62 [200, 15]) ⟨50 * U32 + 50, [115, 104], 20⟩ none,
          Step.tgkill (sys_enter_ctx 234 [200, 201, 15]) ⟨50 * U32 + 50, [115, 104], 25⟩
            (some stale_signal_slot),
          Step.exit ⟨50 * U32 + 50, [115, 104], 30⟩ (some stale_process_slot)]
        State.loaded).events.map Record.timestamp) :=
  ⟨by decide,
   (C10_timestamps_follow_clock _ State.loaded (by decide)).2.2⟩

/-- C11 (as amended): the struct a handler reserves and submits has the
specification's fields in its order and with its widths, each at its natural
alignment. A SignalEvent has its members at offsets 0, 4, 8, 12, 16, 20, 36
and 56 (4 bytes of padding before timestamp_ns) and occupies 64 bytes; a
ProcessEvent has its members at offsets 0, 4, 8, 12, 32, 40 and 44 (4 bytes of
padding before timestamp_ns, 3 after event_type) and occupies 48 bytes. Every
record a handler submits was reserved with exactly that size. -/
theorem C11_record_layout :
    signal_event_members.map Prod.fst = spec_signal_event_widths
    ∧ process_event_members.map Prod.fst = spec_process_event_widths
    ∧ c_offsets 0 signal_event_members = [0, 4, 8, 12, 16, 20, 36, 56]
    ∧ sizeof_signal_event = 64
    ∧ c_offsets 0 process_event_members = [0, 4, 8, 12, 32, 40, 44]
    ∧ sizeof_process_event = 48
    ∧ (∀ h ∈ signal_handlers, ∀ (ctx : List Nat) (cur : Current)
        (slot : Option signal_event) (st : State),
        ∀ r ∈ emitted st (h.2 ctx cur slot st).2, r.size = sizeof_signal_event)
    ∧ (∀ h ∈ process_handlers, ∀ (cur : Current) (slot : Option process_event)
        (st : State),
        ∀ r ∈ emitted st (h.2 cur slot st).2, r.size = sizeof_process_event) := by
  refine ⟨by decide, by decide, by decide, by decide, by decide, by decide, ?_, ?_⟩
  · intro h hh ctx cur slot st r hr
    obtain ⟨op, ot, heq⟩ := signal_handlers_eq h hh
    rw [heq] at hr
    rw [(mem_emitted_signal _ _ _ _ _ _ _ hr).1]
    rfl
  · intro h hh cur slot st r hr
    rw [process_handlers_eq h hh] at hr
    rw [mem_emitted_process _ _ _ _ _ hr]
    rfl

/-- C11 at concrete inputs: the record `trace_kill` submits for signal 15 on
the table `{9: 0, 15: 1}` was reserved with 64 bytes, the fork record with 48. -/
theorem C11_record_layout_witness :
    (Record.sig sizeof_signal_event (signal_record 200 200 15 caller_100)).size = 64
    ∧ (Record.proc sizeof_process_event (process_record 0 caller_100)).size = 48 :=
  ⟨(C11_record_layout.2.2.2.2.2.2.1 (24, trace_kill) (by simp [signal_handlers])
      (sys_enter_ctx 62 [200, 15]) caller_100 (some stale_signal_slot)
      ⟨table_9_suppressed_15_allowed, [], 0⟩ _ (by decide)).trans
      C11_record_layout.2.2.2.1,
   (C11_record_layout.2.2.2.2.2.2.2 (0, trace_fork) (by simp [process_handlers])
      caller_100 (some stale_process_slot) State.loaded _ (by decide)).trans
      C11_record_layout.2.2.2.2.2.1⟩

/-- C11 as stated fails: the layout that is exactly the listed fields puts
timestamp_ns of a SignalEvent at offset 52 and is 60 bytes long (41 for a
ProcessEvent), while the struct has it at offset 56, and the record
`trace_kill` submits for signal 15 was reserved with 64 bytes (48 for the
record of `trace_fork`). -/
theorem C11_packed_layout_counterexample :
    spec_offsets 0 spec_signal_event_widths = [0, 4, 8, 12, 16, 20, 36, 52]
    ∧ c_offsets 0 signal_event_members ≠ spec_offsets 0 spec_signal_event_widths
    ∧ c_offsets 0 process_event_members ≠ spec_offsets 0 spec_process_event_widths
    ∧ spec_size spec_signal_event_widths = 60
    ∧ spec_size spec_process_event_widths = 41
    ∧ (emitted ⟨table_9_suppressed_15_allowed, [], 0⟩
        (trace_kill (sys_enter_ctx 62 [200, 15]) caller_100 (some stale_signal_slot)
          ⟨table_9_suppressed_15_allowed, [], 0⟩).2).map Record.size = [64]
    ∧ (emitted State.loaded
        (trace_fork caller_100 (some stale_process_slot) State.loaded).2).map
          Record.size = [48] := by
  decide

/-- C12: for each of the five handlers and every input, on every path, the
filter table after the invocation is the filter table before it, and the
ring buffer after the invocation is the ring buffer before it followed by
zero or exactly one record. -/
theorem C12_frame (ctx : List Nat) (cur : Current) (st : State) :
    (∀ h ∈ signal_handlers, ∀ slot : Option signal_event,
        (h.2 ctx cur slot st).2.signal_filter = st.signal_filter
        ∧ ∃ l, (h.2 ctx cur slot st).2.events = st.events ++ l ∧ l.length ≤ 1)
    ∧ (∀ h ∈ process_handlers, ∀ slot : Option process_event,
        (h.2 cur slot st).2.signal_filter = st.signal_filter
        ∧ ∃ l, (h.2 cur slot st).2.events = st.events ++ l ∧ l.length ≤ 1) := by
  constructor
  · intro h hh slot
    obtain ⟨op, ot, heq⟩ := signal_handlers_eq h hh
    rw [heq]
    constructor
    · unfold signal_outcome
      split_ifs <;> rfl
    · rw [events_signal_outcome]
      refine ⟨_, rfl, ?_⟩
      split_ifs <;> simp
  · intro h hh slot
    rw [process_handlers_eq h hh]
    constructor
    · unfold process_outcome
      split_ifs <;> rfl
    · rw [events_process_outcome]
      refine ⟨_, rfl, ?_⟩
      split_ifs <;> simp

/-- C12 at concrete inputs: `trace_kill` for signal 15 on the table
`{9: 0, 15: 1}`, with a buffer that already holds one record. -/
theorem C12_frame_witness :
    (trace_kill (sys_enter_ctx 62 [200, 15]) caller_100 (some stale_signal_slot)
        ⟨table_9_suppressed_15_allowed,
          [Record.proc sizeof_process_event (process_record 0 caller_100)], 1⟩).2.signal_filter
      = table_9_suppressed_15_allowed
    ∧ ∃ l, (trace_kill (sys_enter_ctx 62 [200, 15]) caller_100 (some stale_signal_slot)
        ⟨table_9_suppressed_15_allowed,
          [Record.proc sizeof_process_event (process_record 0 caller_100)], 1⟩).2.events
        = [Record.proc sizeof_process_event (process_record 0 caller_100)] ++ l
      ∧ l.length ≤ 1 :=
  (C12_frame (sys_enter_ctx 62 [200, 15]) caller_100
    ⟨table_9_suppressed_15_allowed,
      [Record.proc sizeof_process_event (process_record 0 caller_100)], 1⟩).1
    (24, trace_kill) (by simp [signal_handlers]) (some stale_signal_slot)

/-- C13: for every 64-bit value `v` that `bpf_get_current_pid_tgid` returns,
every emitted SignalEvent has sender_pid = v mod 2^32 and sender_tgid =
v / 2^32, and every emitted ProcessEvent has pid = v mod 2^32 and tgid =
v / 2^32; so the high half times 2^32 plus the low half gives back `v`. -/
theorem C13_caller_identity (cur : Current) (v : Nat) (hv : v < U64)
    (hcur : cur.pid_tgid = v) :
    (∀ h ∈ signal_handlers, ∀ (ctx : List Nat) (slot : Option signal_event)
        (st : State), ∀ r ∈ emitted st (h.2 ctx cur slot st).2,
        ∃ e, r = Record.sig sizeof_signal_event e
          ∧ e.sender_pid = v % U32 ∧ e.sender_tgid = v / U32
          ∧ e.sender_tgid * U32 + e.sender_pid = v)
    ∧ (∀ h ∈ process_handlers, ∀ (slot : Option process_event) (st : State),
        ∀ r ∈ emitted st (h.2 cur slot st).2,
        ∃ e, r = Record.proc sizeof_process_event e
          ∧ e.pid = v % U32 ∧ e.tgid = v / U32
          ∧ e.tgid * U32 + e.pid = v) := by
  have hlow : ((bpf_get_current_pid_tgid cur) &&& 0xFFFFFFFF) % U32 = v % U32 := by
    unfold bpf_get_current_pid_tgid
    rw [low_half, hcur]
  have hhigh : ((bpf_get_current_pid_tgid cur) >>> 32) % U32 = v / U32 := by
    unfold bpf_get_current_pid_tgid
    rw [high_half, hcur, Nat.mod_eq_of_lt hv]
  have hsum : v / U32 * U32 + v % U32 = v := Nat.div_add_mod' v U32
  constructor
  · intro h hh ctx slot st r hr
    obtain ⟨op, ot, heq⟩ := signal_handlers_eq h hh
    rw [heq] at hr
    refine ⟨_, (mem_emitted_signal _ _ _ _ _ _ _ hr).1, hlow, hhigh, ?_⟩
    show ((bpf_get_current_pid_tgid cur) >>> 32) % U32 * U32
      + ((bpf_get_current_pid_tgid cur) &&& 0xFFFFFFFF) % U32 = v
    rw [hlow, hhigh, hsum]
  · intro h hh slot st r hr
    rw [process_handlers_eq h hh] at hr
    refine ⟨_, mem_emitted_process _ _ _ _ _ hr, hlow, hhigh, ?_⟩
    show ((bpf_get_current_pid_tgid cur) >>> 32) % U32 * U32
      + ((bpf_get_current_pid_tgid cur) &&& 0xFFFFFFFF) % U32 = v
    rw [hlow, hhigh, hsum]

/-- C13 at concrete inputs: a caller reported as `7 << 32 | 9` (thread 9 of
thread group 7) sending signal 15 through `trace_kill`. -/
theorem C13_caller_identity_witness :
    ∃ e, Record.sig sizeof_signal_event
            (signal_record 200 200 15 ⟨7 * U32 + 9, [115, 104], 12345⟩)
          = Record.sig sizeof_signal_event e
      ∧ e.sender_pid = (7 * U32 + 9) % U32 ∧ e.sender_tgid = (7 * U32 + 9) / U32
      ∧ e.sender_tgid * U32 + e.sender_pid = 7 * U32 + 9 :=
  (C13_caller_identity ⟨7 * U32 + 9, [115, 104], 12345⟩ (7 * U32 + 9) (by decide) rfl).1
    (24, trace_kill) (by simp [signal_handlers])
    (sys_enter_ctx 62 [200, 15]) (some stale_signal_slot)
    ⟨table_9_suppressed_15_allowed, [], 0⟩ _ (by decide)

/-- C14: every SignalEvent emitted by one of the three signal handlers has a
target_comm of 16 zero bytes and a sender_comm that is what
`bpf_get_current_comm` answers for the caller: 16 bytes, the last of them 0,
and equal to the calling thread's 16-byte process name whenever that array
holds a name (at most 15 nonzero bytes, zero from the terminator on). Two
emitted records of the same caller agree on both fields, whatever the
contexts (target, signal), handlers, reserved slots and states are. -/
theorem C14_comm_fields (cur : Current) :
    (∀ h ∈ signal_handlers, ∀ (ctx : List Nat) (slot : Option signal_event)
        (st : State), ∀ r ∈ emitted st (h.2 ctx cur slot st).2,
        ∃ e, r = Record.sig sizeof_signal_event e
          ∧ e.target_comm = List.replicate 16 0
          ∧ e.sender_comm = bpf_get_current_comm cur TASK_COMM_LEN
          ∧ e.sender_comm.length = 16
          ∧ e.sender_comm.getD 15 0 = 0
          ∧ (∀ name : List Nat, name.length < TASK_COMM_LEN →
              (∀ b ∈ name, 0 < b ∧ b < 256) →
              cur.comm = name ++ List.replicate (TASK_COMM_LEN - name.length) 0 →
              e.sender_comm = cur.comm))
    ∧ (∀ h ∈ signal_handlers, ∀ h2 ∈ signal_handlers,
        ∀ (ctx ctx2 : List Nat) (slot slot2 : Option signal_event) (st st2 : State)
          (sz sz2 : Nat) (e e2 : signal_event),
        Record.sig sz e ∈ emitted st (h.2 ctx cur slot st).2 →
        Record.sig sz2 e2 ∈ emitted st2 (h2.2 ctx2 cur slot2 st2).2 →
        e.sender_comm = e2.sender_comm ∧ e.target_comm = e2.target_comm) := by
  constructor
  · intro h hh ctx slot st r hr
    obtain ⟨op, ot, heq⟩ := signal_handlers_eq h hh
    rw [heq] at hr
    refine ⟨_, (mem_emitted_signal _ _ _ _ _ _ _ hr).1, rfl, rfl,
      comm_length cur TASK_COMM_LEN, ?_, ?_⟩
    · exact comm_terminated cur TASK_COMM_LEN
    · intro name hl hb hc
      exact comm_of_task_name cur name hl hb hc
  · intro h hh h2 hh2 ctx ctx2 slot slot2 st st2 sz sz2 e e2 hr hr2
    obtain ⟨op, ot, heq⟩ := signal_handlers_eq h hh
    obtain ⟨op2, ot2, heq2⟩ := signal_handlers_eq h2 hh2
    rw [heq] at hr
    rw [heq2] at hr2
    have h1 := (mem_emitted_signal _ _ _ _ _ _ _ hr).1
    have h2 := (mem_emitted_signal _ _ _ _ _ _ _ hr2).1
    injection h1 with _ he
    injection h2 with _ he2
    rw [he, he2]
    exact ⟨rfl, rfl⟩

/-- C14 at concrete inputs, each a signal 15 sent through `trace_kill` on the
table `{9: 0, 15: 1}` with a successful reservation: a caller named
`sigwatch-test-1` (15 bytes and the terminator) is recorded with exactly its
16-byte name; name bytes without a terminator are cut after 15 and
terminated; bytes left behind the terminator are not copied. -/
theorem C14_comm_fields_witness :
    (∃ e, emitted ⟨table_9_suppressed_15_allowed, [], 0⟩
            (trace_kill (sys_enter_ctx 62 [200, 15]) caller_named
              (some stale_signal_slot) ⟨table_9_suppressed_15_allowed, [], 0⟩).2
          = [Record.sig sizeof_signal_event e]
        ∧ e.target_comm = List.replicate 16 0
        ∧ e.sender_comm = caller_named.comm
        ∧ e.sender_comm
            = [115, 105, 103, 119, 97, 116, 99, 104, 45, 116, 101, 115, 116, 45, 49, 0])
    ∧ (∃ e, emitted ⟨table_9_suppressed_15_allowed, [], 0⟩
            (trace_kill (sys_enter_ctx 62 [200, 15]) caller_overlong
              (some stale_signal_slot) ⟨table_9_suppressed_15_allowed, [], 0⟩).2
          = [Record.sig sizeof_signal_event e]
        ∧ e.target_comm = List.replicate 16 0
        ∧ e.sender_comm
            = [115, 105, 103, 119, 97, 116, 99, 104, 45, 116, 101, 115, 116, 45, 48, 0])
    ∧ (∃ e, emitted ⟨table_9_suppressed_15_allowed, [], 0⟩
            (trace_kill (sys_enter_ctx 62 [200, 15]) caller_stale_tail
              (some stale_signal_slot) ⟨table_9_suppressed_15_allowed, [], 0⟩).2
          = [Record.sig sizeof_signal_event e]
        ∧ e.target_comm = List.replicate 16 0
        ∧ e.sender_comm = [115, 104, 0, 0, 0, 0, 0, 0, 0, 0, 0, 0, 0, 0, 0, 0]) := by
  refine ⟨?_, ?_, ?_⟩
  · obtain ⟨e, hr, ht, hs, _, _, hname⟩ :=
      (C14_comm_fields caller_named).1 (24, trace_kill) (by simp [signal_handlers])
        (sys_enter_ctx 62 [200, 15]) (some stale_signal_slot)
        ⟨table_9_suppressed_15_allowed, [], 0⟩
        (Record.sig sizeof_signal_event (signal_record 200 200 15 caller_named))
        (by decide)
    have hn := hname [115, 105, 103, 119, 97, 116, 99, 104, 45, 116, 101, 115, 116, 45, 49]
      (by decide) (by decide) (by decide)
    refine ⟨e, ?_, ht, hn, ?_⟩
    · rw [← hr]
      decide
    · rw [hn]
      decide
  · obtain ⟨e, hr, ht, hs, _, _, _⟩ :=
      (C14_comm_fields caller_overlong).1 (24, trace_kill) (by simp [signal_handlers])
        (sys_enter_ctx 62 [200, 15]) (some stale_signal_slot)
        ⟨table_9_suppressed_15_allowed, [], 0⟩
        (Record.sig sizeof_signal_event (signal_record 200 200 15 caller_overlong))
        (by decide)
    refine ⟨e, ?_, ht, ?_⟩
    · rw [← hr]
      decide
    · rw [hs]
      decide
  · obtain ⟨e, hr, ht, hs, _, _, _⟩ :=
      (C14_comm_fields caller_stale_tail).1 (24, trace_kill) (by simp [signal_handlers])
        (sys_enter_ctx 62 [200, 15]) (some stale_signal_slot)
        ⟨table_9_suppressed_15_allowed, [], 0⟩
        (Record.sig sizeof_signal_event (signal_record 200 200 15 caller_stale_tail))
        (by decide)
    refine ⟨e, ?_, ht, ?_⟩
    · rw [← hr]
      decide
    · rw [hs]
      decide

/-- C15: the handlers take their arguments from fixed offsets of the context
as 32-bit little-endian values: `trace_kill` and `trace_tkill` the target from
offset 16 and the signal from offset 24, `trace_tgkill` tgid from offset 16,
tid from offset 24 and the signal from offset 32. Whenever the signal so
extracted is nonzero and not suppressed and the reservation succeeds, the one
record emitted carries exactly these values; nothing else of the context
matters. On a context holding 8-byte little-endian syscall arguments from
offset 16 on, each extracted value is the argument modulo 2^32: a signal
argument whose low 32 bits are 0 is discarded without a reservation, any
other one that is not suppressed is recorded with its low 32 bits. -/
theorem C15_argument_extraction (cur : Current) (slot : Option signal_event)
    (e0 : signal_event) (st : State) (id a b c : Nat) (rest : List Nat) :
    (∀ (ctx : List Nat) (off : Nat), off + 4 ≤ ctx.length →
        read_u32 ctx off
          = ctx.getD off 0 % 256 + 256 * (ctx.getD (off + 1) 0 % 256
            + 256 * (ctx.getD (off + 2) 0 % 256 + 256 * (ctx.getD (off + 3) 0 % 256)))
        ∧ read_u32 ctx off < U32)
    ∧ (∀ ctx : List Nat,
        ∀ r ∈ emitted st (trace_kill ctx cur slot st).2
              ++ emitted st (trace_tkill ctx cur slot st).2,
          ∃ e, r = Record.sig sizeof_signal_event e
            ∧ e.target_pid = read_u32 ctx 16 ∧ e.signal = read_u32 ctx 24)
    ∧ (∀ ctx : List Nat, ∀ r ∈ emitted st (trace_tgkill ctx cur slot st).2,
          ∃ e, r = Record.sig sizeof_signal_event e
            ∧ e.target_tgid = read_u32 ctx 16 ∧ e.target_pid = read_u32 ctx 24
            ∧ e.signal = read_u32 ctx 32)
    ∧ (∀ ctx ctx2 : List Nat,
        read_u32 ctx 16 = read_u32 ctx2 16 → read_u32 ctx 24 = read_u32 ctx2 24 →
        trace_kill ctx cur slot st = trace_kill ctx2 cur slot st
        ∧ trace_tkill ctx cur slot st = trace_tkill ctx2 cur slot st
        ∧ (read_u32 ctx 32 = read_u32 ctx2 32 →
            trace_tgkill ctx cur slot st = trace_tgkill ctx2 cur slot st))
    ∧ (read_u32 (sys_enter_ctx id (a :: b :: c :: rest)) 16 = a % U32
        ∧ read_u32 (sys_enter_ctx id (a :: b :: c :: rest)) 24 = b % U32
        ∧ read_u32 (sys_enter_ctx id (a :: b :: c :: rest)) 32 = c % U32)
    ∧ (c % U32 = 0 →
        trace_kill (sys_enter_ctx id (a :: c :: rest)) cur slot st = (0, st)
        ∧ trace_tkill (sys_enter_ctx id (a :: c :: rest)) cur slot st = (0, st)
        ∧ trace_tgkill (sys_enter_ctx id (a :: b :: c :: rest)) cur slot st = (0, st))
    ∧ (∀ ctx : List Nat, read_u32 ctx 24 ≠ 0 →
        bpf_map_lookup_elem st.signal_filter (read_u32 ctx 24) ≠ some 0 →
        (∃ e, emitted st (trace_kill ctx cur (some e0) st).2
                = [Record.sig sizeof_signal_event e]
              ∧ e.target_pid = read_u32 ctx 16 ∧ e.target_tgid = read_u32 ctx 16
              ∧ e.signal = read_u32 ctx 24)
        ∧ (∃ e, emitted st (trace_tkill ctx cur (some e0) st).2
                = [Record.sig sizeof_signal_event e]
              ∧ e.target_pid = read_u32 ctx 16 ∧ e.target_tgid = read_u32 ctx 16
              ∧ e.signal = read_u32 ctx 24))
    ∧ (∀ ctx : List Nat, read_u32 ctx 32 ≠ 0 →
        bpf_map_lookup_elem st.signal_filter (read_u32 ctx 32) ≠ some 0 →
        ∃ e, emitted st (trace_tgkill ctx cur (some e0) st).2
                = [Record.sig sizeof_signal_event e]
              ∧ e.target_tgid = read_u32 ctx 16 ∧ e.target_pid = read_u32 ctx 24
              ∧ e.signal = read_u32 ctx 32)
    ∧ (c % U32 ≠ 0 → bpf_map_lookup_elem st.signal_filter (c % U32) ≠ some 0 →
        (∃ e, emitted st
                (trace_kill (sys_enter_ctx id (a :: c :: rest)) cur (some e0) st).2
                = [Record.sig sizeof_signal_event e]
              ∧ e.target_pid = a % U32 ∧ e.target_tgid = a % U32
              ∧ e.signal = c % U32)
        ∧ (∃ e, emitted st
                (trace_tkill (sys_enter_ctx id (a :: c :: rest)) cur (some e0) st).2
                = [Record.sig sizeof_signal_event e]
              ∧ e.target_pid = a % U32 ∧ e.target_tgid = a % U32
              ∧ e.signal = c % U32)
        ∧ (∃ e, emitted st
                (trace_tgkill (sys_enter_ctx id (a :: b :: c :: rest)) cur (some e0) st).2
                = [Record.sig sizeof_signal_event e]
              ∧ e.target_tgid = a % U32 ∧ e.target_pid = b % U32
              ∧ e.signal = c % U32)) := by
  have hemit : ∀ sig : Nat, sig ≠ 0 →
      bpf_map_lookup_elem st.signal_filter sig ≠ some 0 →
      signal_emits sig (some e0) st = true := by
    intro sig h0 hl
    exact (signal_emits_iff _ _ _).mpr ⟨h0, hl, by simp⟩
  refine ⟨?_, ?_, ?_, ?_, ?_, ?_, ?_, ?_, ?_⟩
  · intro ctx off h
    exact ⟨read_u32_bytes ctx off h, read_u32_lt ctx off⟩
  · intro ctx r hr
    rw [List.mem_append, trace_kill_eq, trace_tkill_eq, or_self] at hr
    exact ⟨_, (mem_emitted_signal _ _ _ _ _ _ _ hr).1, rfl, rfl⟩
  · intro ctx r hr
    rw [trace_tgkill_eq] at hr
    exact ⟨_, (mem_emitted_signal _ _ _ _ _ _ _ hr).1, rfl, rfl, rfl⟩
  · intro ctx ctx2 h16 h24
    refine ⟨?_, ?_, ?_⟩
    · rw [trace_kill_eq, trace_kill_eq, h16, h24]
    · rw [trace_tkill_eq, trace_tkill_eq, h16, h24]
    · intro h32
      rw [trace_tgkill_eq, trace_tgkill_eq, h16, h24, h32]
  · exact ⟨read_u32_arg0 _ _ _, read_u32_arg1 _ _ _ _, read_u32_arg2 _ _ _ _ _⟩
  · intro hlow
    refine ⟨?_, ?_, ?_⟩
    · rw [trace_kill_eq, read_u32_arg1, hlow]
      simp [signal_outcome]
    · rw [trace_tkill_eq, read_u32_arg1, hlow]
      simp [signal_outcome]
    · rw [trace_tgkill_eq, read_u32_arg2, hlow]
      simp [signal_outcome]
  · intro ctx h0 hl
    constructor
    · rw [trace_kill_eq, emitted_signal_outcome, if_pos (hemit _ h0 hl)]
      exact ⟨_, rfl, rfl, rfl, rfl⟩
    · rw [trace_tkill_eq, emitted_signal_outcome, if_pos (hemit _ h0 hl)]
      exact ⟨_, rfl, rfl, rfl, rfl⟩
  · intro ctx h0 hl
    rw [trace_tgkill_eq, emitted_signal_outcome, if_pos (hemit _ h0 hl)]
    exact ⟨_, rfl, rfl, rfl, rfl⟩
  · intro h0 hl
    refine ⟨?_, ?_, ?_⟩
    · rw [trace_kill_eq, emitted_signal_outcome, read_u32_arg0, read_u32_arg1,
        if_pos (hemit _ h0 hl)]
      exact ⟨_, rfl, rfl, rfl, rfl⟩
    · rw [trace_tkill_eq, emitted_signal_outcome, read_u32_arg0, read_u32_arg1,
        if_pos (hemit _ h0 hl)]
      exact ⟨_, rfl, rfl, rfl, rfl⟩
    · rw [trace_tgkill_eq, emitted_signal_outcome, read_u32_arg0, read_u32_arg1,
        read_u32_arg2, if_pos (hemit _ h0 hl)]
      exact ⟨_, rfl, rfl, rfl, rfl⟩

/-- C15 at concrete inputs, on the table `{9: 0, 15: 1}` with a successful
reservation: `tgkill(2^32 + 200, 2^33 + 201, 2^32 + 15)` is recorded with
target_tgid 200, target_pid 201 and signal 15, and `kill(2^32 + 200,
2^32 + 15)` with target 200 and signal 15; the signal argument `3 * 2^32`
(low 32 bits zero, high bits set) is discarded without a reservation. -/
theorem C15_argument_extraction_witness :
    (∃ e, emitted ⟨table_9_suppressed_15_allowed, [], 0⟩
            (trace_tgkill (sys_enter_ctx 234 [2 ^ 32 + 200, 2 ^ 33 + 201, 2 ^ 32 + 15])
              caller_100 (some stale_signal_slot)
              ⟨table_9_suppressed_15_allowed, [], 0⟩).2
          = [Record.sig sizeof_signal_event e]
        ∧ e.target_tgid = 200 ∧ e.target_pid = 201 ∧ e.signal = 15)
    ∧ (∃ e, emitted ⟨table_9_suppressed_15_allowed, [], 0⟩
            (trace_kill (sys_enter_ctx 62 [2 ^ 32 + 200, 2 ^ 32 + 15])
              caller_100 (some stale_signal_slot)
              ⟨table_9_suppressed_15_allowed, [], 0⟩).2
          = [Record.sig sizeof_signal_event e]
        ∧ e.target_pid = 200 ∧ e.target_tgid = 200 ∧ e.signal = 15)
    ∧ (3 * 2 ^ 32) % U32 = 0
    ∧ trace_tgkill (sys_enter_ctx 234 [200, 201, 3 * 2 ^ 32]) caller_100
        (some stale_signal_slot) ⟨table_9_suppressed_15_allowed, [], 0⟩
      = (0, ⟨table_9_suppressed_15_allowed, [], 0⟩) :=
  ⟨((C15_argument_extraction caller_100 (some stale_signal_slot) stale_signal_slot
      ⟨table_9_suppressed_15_allowed, [], 0⟩ 234 (2 ^ 32 + 200) (2 ^ 33 + 201)
      (2 ^ 32 + 15) []).2.2.2.2.2.2.2.2 (by decide) (by decide)).2.2,
   ((C15_argument_extraction caller_100 (some stale_signal_slot) stale_signal_slot
      ⟨table_9_suppressed_15_allowed, [], 0⟩ 62 (2 ^ 32 + 200) 0
      (2 ^ 32 + 15) []).2.2.2.2.2.2.2.2 (by decide) (by decide)).1,
   by decide,
   ((C15_argument_extraction caller_100 (some stale_signal_slot) stale_signal_slot
      ⟨table_9_suppressed_15_allowed, [], 0⟩ 234 200 201 (3 * 2 ^ 32) []).2.2.2.2.2.1
      (by decide)).2.2⟩

/-- C16: `trace_kill` and `trace_tkill` are the same function. `trace_tgkill`
takes the same emit-or-discard decision as they do whenever its signal
argument is theirs, and has the same result, record included, whenever in
addition its tgid and tid arguments both equal their target. -/
theorem C16_handlers_agree (ctx ctx2 : List Nat) (cur : Current)
    (slot : Option signal_event) (st : State)
    (hsig : read_u32 ctx2 32 = read_u32 ctx 24) :
    trace_kill = trace_tkill
    ∧ trace_kill ctx cur slot st = trace_tkill ctx cur slot st
    ∧ (emitted st (trace_tgkill ctx2 cur slot st).2 = []
        ↔ emitted st (trace_kill ctx cur slot st).2 = [])
    ∧ (trace_tgkill ctx2 cur slot st).1 = (trace_kill ctx cur slot st).1
    ∧ (trace_tgkill ctx2 cur slot st).2.reserve_calls
        = (trace_kill ctx cur slot st).2.reserve_calls
    ∧ (read_u32 ctx2 16 = read_u32 ctx 16 → read_u32 ctx2 24 = read_u32 ctx 16 →
        trace_tgkill ctx2 cur slot st = trace_kill ctx cur slot st) := by
  refine ⟨?_, ?_, ?_, ?_, ?_, ?_⟩
  · funext c k s t
    rw [trace_kill_eq, trace_tkill_eq]
  · rw [trace_kill_eq, trace_tkill_eq]
  · rw [trace_tgkill_eq, trace_kill_eq, emitted_signal_outcome, emitted_signal_outcome,
      hsig]
    split_ifs <;> simp
  · rw [trace_tgkill_eq, trace_kill_eq, hsig]
    unfold signal_outcome
    split_ifs <;> rfl
  · rw [trace_tgkill_eq, trace_kill_eq, hsig]
    unfold signal_outcome
    split_ifs <;> rfl
  · intro h16 h24
    rw [trace_tgkill_eq, trace_kill_eq, hsig, h16, h24]

/-- C16 at concrete inputs: `tgkill(200, 200, 15)` against `kill(200, 15)` on
the table `{9: 0, 15: 1}`, both with a successful reservation. -/
theorem C16_handlers_agree_witness :
    trace_tgkill (sys_enter_ctx 234 [200, 200, 15]) caller_100 (some stale_signal_slot)
        ⟨table_9_suppressed_15_allowed, [], 0⟩
      = trace_kill (sys_enter_ctx 62 [200, 15]) caller_100 (some stale_signal_slot)
        ⟨table_9_suppressed_15_allowed, [], 0⟩
    ∧ (emitted ⟨table_9_suppressed_15_allowed, [], 0⟩
        (trace_kill (sys_enter_ctx 62 [200, 15]) caller_100 (some stale_signal_slot)
          ⟨table_9_suppressed_15_allowed, [], 0⟩).2).length = 1 :=
  ⟨(C16_handlers_agree (sys_enter_ctx 62 [200, 15]) (sys_enter_ctx 234 [200, 200, 15])
      caller_100 (some stale_signal_slot) ⟨table_9_suppressed_15_allowed, [], 0⟩
      (by decide)).2.2.2.2.2 (by decide) (by decide),
   by decide⟩

/-- C17 (as amended): every named field of a record is written before it is
submitted, so the named fields of the submitted record do not depend on what
the reserved slot held: two runs of the same handler on the same arguments,
filter table, caller and clock reading whose slots held different contents
have the same result on named members, and the records they submit decode to
the same SignalEvent (all 8 fields), resp. ProcessEvent (all 7 fields), and
agree in every byte that belongs to a member. The bytes that belong to no
member (52 to 55 of a SignalEvent, 28 to 31 and 41 to 43 of a ProcessEvent)
are not written: each record is submitted with what its slot held there. -/
theorem C17_slot_contents_irrelevant (ctx : List Nat) (cur : Current) (st : State)
    (e0 e1 : signal_event) (p0 p1 : process_event) (m0 m1 : List Nat) :
    (∀ h ∈ signal_handlers,
        h.2 ctx cur (some e0) st = h.2 ctx cur (some e1) st
        ∧ emitted st (h.2 ctx cur (some e0) st).2
            = emitted st (h.2 ctx cur (some e1) st).2)
    ∧ (∀ h ∈ process_handlers,
        h.2 cur (some p0) st = h.2 cur (some p1) st
        ∧ emitted st (h.2 cur (some p0) st).2 = emitted st (h.2 cur (some p1) st).2
        ∧ (emitted st (h.2 cur (some p0) st).2).length = 1)
    ∧ (∀ hb ∈ signal_handlers_bytes,
        ((hb.2 ctx cur (some m0) st).2 = none
          ↔ emitted st (hb.1 ctx cur (some e0) st).2 = [])
        ∧ ∀ b0 b1 : List Nat,
            (hb.2 ctx cur (some m0) st).2 = some b0 →
            (hb.2 ctx cur (some m1) st).2 = some b1 →
            b0.length = sizeof_signal_event ∧ b1.length = sizeof_signal_event
            ∧ emitted st (hb.1 ctx cur (some e0) st).2
                = [Record.sig sizeof_signal_event (signal_event_load b0)]
            ∧ signal_event_load b0 = signal_event_load b1
            ∧ (∀ i, signal_event_padding i = false → b0.getD i 0 = b1.getD i 0)
            ∧ (∀ i, signal_event_padding i = true →
                b0.getD i 0 = m0.getD i 0 % 256 ∧ b1.getD i 0 = m1.getD i 0 % 256))
    ∧ (∀ hb ∈ process_handlers_bytes,
        ∃ b0 b1 : List Nat,
            (hb.2 cur (some m0)).2 = some b0 ∧ (hb.2 cur (some m1)).2 = some b1
            ∧ b0.length = sizeof_process_event ∧ b1.length = sizeof_process_event
            ∧ emitted st (hb.1 cur (some p0) st).2
                = [Record.proc sizeof_process_event (process_event_load b0)]
            ∧ process_event_load b0 = process_event_load b1
            ∧ (∀ i, process_event_padding i = false → b0.getD i 0 = b1.getD i 0)
            ∧ (∀ i, process_event_padding i = true →
                b0.getD i 0 = m0.getD i 0 % 256 ∧ b1.getD i 0 = m1.getD i 0 % 256))
    ∧ (∀ i, signal_event_padding i = true ↔ 52 ≤ i ∧ i < 56)
    ∧ (∀ i, process_event_padding i = true ↔ (28 ≤ i ∧ i < 32) ∨ (41 ≤ i ∧ i < 44)) := by
  refine ⟨?_, ?_, ?_, ?_, signal_event_padding_iff, process_event_padding_iff⟩
  · intro h hh
    obtain ⟨op, ot, heq⟩ := signal_handlers_eq h hh
    have hres : h.2 ctx cur (some e0) st = h.2 ctx cur (some e1) st := by
      rw [heq, heq]
      unfold signal_outcome
      simp
    exact ⟨hres, by rw [hres]⟩
  · intro h hh
    have hres : h.2 cur (some p0) st = h.2 cur (some p1) st := by
      rw [process_handlers_eq h hh, process_handlers_eq h hh]
      unfold process_outcome
      simp
    refine ⟨hres, by rw [hres], ?_⟩
    rw [process_handlers_eq h hh, emitted_process_outcome]
    simp
  · intro hb hh
    obtain ⟨op, ot, os, hf, hm⟩ := signal_handlers_bytes_eq hb hh
    rw [hf, hm, hm, emitted_signal_outcome]
    by_cases hd : read_u32 ctx os = 0
        ∨ bpf_map_lookup_elem st.signal_filter (read_u32 ctx os) = some 0
    · have hne : ¬ (signal_emits (read_u32 ctx os) (some e0) st = true) := by
        rw [signal_emits_iff]
        rintro ⟨h0, hl, _⟩
        rcases hd with hd | hd
        · exact h0 hd
        · exact hl hd
      unfold signal_outcome_bytes
      rw [if_pos hd, if_pos hd, if_neg hne]
      refine ⟨⟨fun _ => rfl, fun _ => rfl⟩, ?_⟩
      intro b0 b1 h0
      cases h0
    · have he : signal_emits (read_u32 ctx os) (some e0) st = true := by
        rw [signal_emits_iff]
        refine ⟨fun h0 => hd (Or.inl h0), fun hl => hd (Or.inr hl), by simp⟩
      unfold signal_outcome_bytes
      rw [if_neg hd, if_neg hd, if_pos he]
      refine ⟨⟨fun h0 => by simp [ringbuf_reserve_bytes] at h0,
        fun h0 => by simp at h0⟩, ?_⟩
      intro b0 b1 h0 h1
      simp only [ringbuf_reserve_bytes, Option.map_some', Option.some.injEq] at h0 h1
      obtain ⟨l0, l1, d0, d1, hmem, hpad⟩ :=
        signal_bytes_facts (read_u32 ctx op) (read_u32 ctx ot) (read_u32 ctx os) cur
          (read_u32_lt _ _) (read_u32_lt _ _) (read_u32_lt _ _) m0 m1 b0 b1
          h0.symm h1.symm
      exact ⟨l0, l1, by rw [d0], by rw [d0, d1], hmem, hpad⟩
  · intro hb hh
    obtain ⟨ty, hty, hf, hm⟩ := process_handlers_bytes_eq hb hh
    rw [hf, hm, hm, emitted_process_outcome]
    obtain ⟨l0, l1, d0, d1, hmem, hpad⟩ :=
      process_bytes_facts ty cur hty m0 m1 _ _ rfl rfl
    refine ⟨_, _, by simp [process_outcome_bytes, ringbuf_reserve_bytes],
      by simp [process_outcome_bytes, ringbuf_reserve_bytes], l0, l1, ?_, ?_, hmem, hpad⟩
    · rw [d0]
      simp
    · rw [d0, d1]

/-- C17 (as amended) at concrete inputs: `trace_kill` for signal 15 and
`trace_exit`, each run once on a slot whose bytes were all `0xFF` and once on
a zeroed slot. Both runs submit records that decode to the same members and
differ in the padding alone, where each still holds the byte of its slot. -/
theorem C17_slot_contents_irrelevant_witness :
    stale_signal_slot ≠ zero_signal_slot
    ∧ emitted ⟨table_9_suppressed_15_allowed, [], 0⟩
        (trace_kill (sys_enter_ctx 62 [200, 15]) caller_100 (some stale_signal_slot)
          ⟨table_9_suppressed_15_allowed, [], 0⟩).2
      = emitted ⟨table_9_suppressed_15_allowed, [], 0⟩
        (trace_kill (sys_enter_ctx 62 [200, 15]) caller_100 (some zero_signal_slot)
          ⟨table_9_suppressed_15_allowed, [], 0⟩).2
    ∧ (emitted ⟨table_9_suppressed_15_allowed, [], 0⟩
        (trace_kill (sys_enter_ctx 62 [200, 15]) caller_100 (some stale_signal_slot)
          ⟨table_9_suppressed_15_allowed, [], 0⟩).2).length = 1
    ∧ stale_process_slot ≠ zero_process_slot
    ∧ emitted ⟨table_9_suppressed_15_allowed, [], 0⟩
        (trace_exit caller_100 (some stale_process_slot)
          ⟨table_9_suppressed_15_allowed, [], 0⟩).2
      = emitted ⟨table_9_suppressed_15_allowed, [], 0⟩
        (trace_exit caller_100 (some zero_process_slot)
          ⟨table_9_suppressed_15_allowed, [], 0⟩).2
    ∧ (∃ b0 b1 : List Nat,
        (trace_kill_bytes (sys_enter_ctx 62 [200, 15]) caller_100 (some stale_bytes_slot)
          ⟨table_9_suppressed_15_allowed, [], 0⟩).2 = some b0
        ∧ (trace_kill_bytes (sys_enter_ctx 62 [200, 15]) caller_100 (some zero_bytes_slot)
          ⟨table_9_suppressed_15_allowed, [], 0⟩).2 = some b1
        ∧ signal_event_load b0 = signal_event_load b1
        ∧ signal_event_load b0 = signal_record 200 200 15 caller_100
        ∧ (∀ i, signal_event_padding i = false → b0.getD i 0 = b1.getD i 0)
        ∧ b0.getD 52 0 = 255 ∧ b1.getD 52 0 = 0) := by
  have hthm := C17_slot_contents_irrelevant (sys_enter_ctx 62 [200, 15]) caller_100
    ⟨table_9_suppressed_15_allowed, [], 0⟩ stale_signal_slot zero_signal_slot
    stale_process_slot zero_process_slot stale_bytes_slot zero_bytes_slot
  refine ⟨by decide, (hthm.1 (24, trace_kill) (by simp [signal_handlers])).2, by decide,
    by decide, (hthm.2.1 (1, trace_exit) (by simp [process_handlers])).2.1, ?_⟩
  have hk := (hthm.2.2.1 (trace_kill, trace_kill_bytes)
    (by simp [signal_handlers_bytes])).2
  refine ⟨_, _, rfl, rfl, ?_⟩
  obtain ⟨_, _, _, hload, hmem, hpad⟩ := hk _ _ rfl rfl
  refine ⟨hload, by decide, hmem, ?_, ?_⟩
  · rw [(hpad 52 (by decide)).1]
    decide
  · rw [(hpad 52 (by decide)).2]
    decide

/-- C17 as stated fails: the structs are not packed and no store of a handler
writes their padding, so the record submitted depends on what the slot held.
`trace_kill` for signal 15 on a slot whose bytes were all `0xFF` and on a
zeroed slot, everything else equal, submits records that differ (byte 52 is
255 in one and 0 in the other); so does `trace_exit` (byte 28). -/
theorem C17_padding_counterexample :
    (trace_kill_bytes (sys_enter_ctx 62 [200, 15]) caller_100 (some stale_bytes_slot)
        ⟨table_9_suppressed_15_allowed, [], 0⟩).2
      ≠ (trace_kill_bytes (sys_enter_ctx 62 [200, 15]) caller_100 (some zero_bytes_slot)
        ⟨table_9_suppressed_15_allowed, [], 0⟩).2
    ∧ (trace_kill_bytes (sys_enter_ctx 62 [200, 15]) caller_100 (some stale_bytes_slot)
        ⟨table_9_suppressed_15_allowed, [], 0⟩).2.map (fun b => b.getD 52 0) = some 255
    ∧ (trace_kill_bytes (sys_enter_ctx 62 [200, 15]) caller_100 (some zero_bytes_slot)
        ⟨table_9_suppressed_15_allowed, [], 0⟩).2.map (fun b => b.getD 52 0) = some 0
    ∧ (trace_exit_bytes caller_100 (some stale_bytes_slot)).2
      ≠ (trace_exit_bytes caller_100 (some zero_bytes_slot)).2
    ∧ (trace_exit_bytes caller_100 (some stale_bytes_slot)).2.map
        (fun b => b.getD 28 0) = some 255
    ∧ (trace_exit_bytes caller_100 (some zero_bytes_slot)).2.map
        (fun b => b.getD 28 0) = some 0 := by
  decide

end Sigwatch
